import Mathlib

/-!
Verification of the natrix interpreter core (lexer, parser, evaluator,
object system and garbage collector) against its specification.

The definitions below are shallow embeddings of the C sources:

* `src/parser/lexer.c`   — indentation-sensitive lexer
* `src/parser/parser.c`  — recursive-descent parser
* `src/main.c`           — evaluator (`eval_expr`, `exec_stmt`) and entry point
* `src/obj/nx_int.c`, `src/obj/nx_list.c`, `src/obj/nx_object_array.c`,
  `src/obj/defs.c`       — object system
* `src/util/gc.c`        — mark-and-sweep collector

C pointers into the source buffer are modelled as natural-number indices;
the null terminator is modelled by reading `'\x00'` past the end of the
character list.  C `int64_t` arithmetic is modelled on `Int` with an
explicit wrap into `[-2^63, 2^63)` where overflow matters.  C `assert`
conditions (active in the project's debug/test builds) are modelled as
error results whose message starts with `assertion failure`.
-/

namespace Natrix

/-- The null character used to model the C string terminator. -/
def nulChar : Char := '\x00'

/-- Reading the source buffer at index `i`; past the end this yields the
null terminator, exactly as in the C null-terminated buffer. -/
def charAt (src : List Char) (i : Nat) : Char := src.getD i nulChar

theorem charAt_eq_nul_of_le (src : List Char) (i : Nat) (h : src.length ≤ i) :
    charAt src i = nulChar := by
  simp [charAt, List.getD_eq_getElem?_getD, List.getElem?_eq_none (by omega : src.length ≤ i)]

theorem lt_length_of_charAt_ne (src : List Char) (i : Nat) (h : charAt src i ≠ nulChar) :
    i < src.length := by
  by_contra hcon
  exact h (charAt_eq_nul_of_le src i (by omega))

/-- Structural worker for `scanWhile`: the fuel is the distance to the end
of the buffer, so recursion is structural and computations reduce in the
kernel. -/
def scanWhileGo (src : List Char) (p : Char → Bool) : Nat → Nat → Nat
  | 0, i => i
  | fuel + 1, i =>
      if i < src.length ∧ p (charAt src i) then scanWhileGo src p fuel (i + 1) else i

/-- Generic scan loop of the lexer: advance `i` while the predicate holds;
the bound `i < src.length` is redundant for every predicate used by the
lexer (none of them accepts the terminator `'\x00'`, which `charAt` yields
past the end). -/
def scanWhile (src : List Char) (p : Char → Bool) (i : Nat) : Nat :=
  scanWhileGo src p (src.length - i) i

theorem scanWhileGo_ge (src : List Char) (p : Char → Bool) :
    ∀ fuel i, i ≤ scanWhileGo src p fuel i := by
  intro fuel
  induction fuel with
  | zero => intro i; exact le_refl i
  | succ f ih =>
    intro i
    simp only [scanWhileGo]
    split
    · have := ih (i + 1); omega
    · omega

theorem scanWhile_ge (src : List Char) (p : Char → Bool) (i : Nat) :
    i ≤ scanWhile src p i :=
  scanWhileGo_ge src p _ i

theorem scanWhileGo_le (src : List Char) (p : Char → Bool) (k : Nat)
    (hk : p (charAt src k) = false) :
    ∀ fuel i, i ≤ k → scanWhileGo src p fuel i ≤ k := by
  intro fuel
  induction fuel with
  | zero => intro i h; exact h
  | succ f ih =>
    intro i hik
    simp only [scanWhileGo]
    split
    · next h =>
      have hne : i ≠ k := by
        intro he; rw [he] at h; rw [hk] at h; simp at h
      exact ih (i + 1) (by omega)
    · omega

theorem scanWhile_le (src : List Char) (p : Char → Bool) (i k : Nat)
    (hik : i ≤ k) (hk : p (charAt src k) = false) : scanWhile src p i ≤ k :=
  scanWhileGo_le src p k hk _ i hik

theorem scanWhileGo_stop (src : List Char) (p : Char → Bool) :
    ∀ fuel i, src.length - i ≤ fuel →
      ¬(scanWhileGo src p fuel i < src.length ∧ p (charAt src (scanWhileGo src p fuel i))) := by
  intro fuel
  induction fuel with
  | zero =>
    intro i hf
    simp only [scanWhileGo]
    rintro ⟨h1, -⟩
    omega
  | succ f ih =>
    intro i hf
    simp only [scanWhileGo]
    split
    · next h => exact ih (i + 1) (by omega)
    · next h => exact h

theorem scanWhile_stop (src : List Char) (p : Char → Bool) (i : Nat) :
    ¬(scanWhile src p i < src.length ∧ p (charAt src (scanWhile src p i))) :=
  scanWhileGo_stop src p _ i (le_refl _)

/-- Token kinds, from `src/parser/token_types.inc`. -/
inductive TokenType where
  | EOF | ERROR | NEWLINE | INDENT | DEDENT
  | INT_LITERAL | STRING_LITERAL | IDENTIFIER
  | KW_IF | KW_ELIF | KW_ELSE | KW_WHILE | KW_PASS | KW_PRINT
  | PLUS | MINUS | STAR | SLASH
  | LPAREN | RPAREN | LBRACKET | RBRACKET
  | COMMA | COLON | EQUALS
  | EQ | NE | LT | LE | GT | GE
deriving DecidableEq

/-- A token: kind plus `[start, stop)` indices into the source buffer
(the C struct stores `start`/`end` pointers; `end` is a Lean keyword). -/
structure Token where
  type : TokenType
  start : Nat
  stop : Nat
deriving DecidableEq

/-- `MAX_INDENT_STACK` from `lexer.h`. -/
def MAX_INDENT_STACK : Nat := 64

/-- Lexer state, from `lexer.h`.  The indentation stack is stored with its
top element first (the C code stores it bottom-first in a fixed array and
addresses `indent_stack[indent_stack_size - 1]`). -/
structure Lexer where
  start : Nat
  current : Nat
  errorMessage : Option String
  indentStack : List Nat
  pendingDedents : Nat
  emptyLine : Bool
deriving DecidableEq

/-- `lexer_init` from `lexer.c`. -/
def lexer_init : Lexer :=
  { start := 0, current := 0, errorMessage := none,
    indentStack := [0], pendingDedents := 0, emptyLine := true }

/-- `make_token` from `lexer.c`: span taken from the lexer state. -/
def make_token (l : Lexer) (type : TokenType) : Token :=
  { type := type, start := l.start, stop := l.current }

/-- ASCII digit test (`isdigit`). -/
def isDigitC (c : Char) : Bool := '0' ≤ c && c ≤ '9'

/-- ASCII letter test (`isalpha`). -/
def isAlphaC (c : Char) : Bool := ('a' ≤ c && c ≤ 'z') || ('A' ≤ c && c ≤ 'Z')

/-- ASCII alphanumeric test (`isalnum`). -/
def isAlnumC (c : Char) : Bool := isDigitC c || isAlphaC c

/-- `skip_whitespace` from `lexer.c`: skip spaces, remember the token start,
and skip a comment up to (not including) the newline. -/
def skip_whitespace (src : List Char) (l : Lexer) : Lexer :=
  let cur := scanWhile src (· == ' ') l.current
  let l := { l with current := cur, start := cur }
  if charAt src l.current = '#' then
    { l with current := scanWhile src (· != '\n') l.current }
  else l

/-- The pop loop of `handle_indentation_change`: pop levels while the stack
has more than one entry and the measured indent is below the top, counting
each pop in `pending`. -/
def popIndentLevels (indent : Nat) : List Nat → Nat → List Nat × Nat
  | top :: second :: rest, pending =>
      if indent < top then popIndentLevels indent (second :: rest) (pending + 1)
      else (top :: second :: rest, pending)
  | stack, pending => (stack, pending)

/-- `handle_indentation_change` from `lexer.c`.  Called with the measured
indentation, which differs from the top of the stack; `l.current` already
points past the leading spaces. -/
def handle_indentation_change (l : Lexer) (indent : Nat) : TokenType × Lexer :=
  let lastIndent := l.indentStack.headD 0
  if indent > lastIndent then
    let l := { l with start := l.current - indent + lastIndent }
    if l.indentStack.length = MAX_INDENT_STACK then
      (.ERROR, { l with errorMessage := some "too many indentation levels" })
    else
      (.INDENT, { l with indentStack := indent :: l.indentStack })
  else
    let l := { l with start := l.current - indent }
    let sp := popIndentLevels indent l.indentStack l.pendingDedents
    if indent ≠ sp.1.headD 0 then
      let msg := "unindent does not match any outer indentation level"
      (.ERROR, { l with indentStack := sp.1, pendingDedents := sp.2, errorMessage := some msg })
    else
      (.DEDENT, { l with indentStack := sp.1, pendingDedents := sp.2 - 1 })

/-- `check_keyword` from `lexer.c`. -/
def check_keyword (src : List Char) (ptr stop : Nat) :
    List Char → TokenType → TokenType
  | [], type => if ptr = stop then type else .IDENTIFIER
  | k :: ks, type =>
      if ptr < stop ∧ charAt src ptr = k then check_keyword src (ptr + 1) stop ks type
      else .IDENTIFIER

/-- `handle_identifier` from `lexer.c`. -/
def handle_identifier (src : List Char) (start stop : Nat) : TokenType :=
  if charAt src start = 'e' then
    if start + 2 < stop ∧ charAt src (start + 1) = 'l' then
      if charAt src (start + 2) = 's' then check_keyword src start stop "else".toList .KW_ELSE
      else if charAt src (start + 2) = 'i' then check_keyword src start stop "elif".toList .KW_ELIF
      else .IDENTIFIER
    else .IDENTIFIER
  else if charAt src start = 'i' then check_keyword src start stop "if".toList .KW_IF
  else if charAt src start = 'p' then
    if start + 1 < stop then
      if charAt src (start + 1) = 'a' then check_keyword src start stop "pass".toList .KW_PASS
      else if charAt src (start + 1) = 'r' then check_keyword src start stop "print".toList .KW_PRINT
      else .IDENTIFIER
    else .IDENTIFIER
  else if charAt src start = 'w' then check_keyword src start stop "while".toList .KW_WHILE
  else .IDENTIFIER

/-- Characters the string-literal loop of the lexer scans over: anything
other than the closing quote and the newline (the C loop stops at `'"'`
and errors at `'\n'`). -/
def strChar (ch : Char) : Bool := !(ch == '"' || ch == '\n')

/-- The character switch of `parse_token` on the character `c` under the
cursor (`switch (*lexer->current++)` in C, with the preceding digit and
identifier tests).  It yields the token type, the new value of `current`,
and the error message set by the error cases, given the token start
`start` and the cursor `cur`. -/
def parse_token_switch_core (src : List Char) (start cur : Nat) (c : Char) :
    TokenType × Nat × Option String :=
  if isDigitC c then (.INT_LITERAL, scanWhile src isDigitC cur, none)
  else if isAlphaC c || c == '_' then
    -- the C local for the scan end is inlined here
    (handle_identifier src start (scanWhile src (fun ch => isAlnumC ch || ch == '_') cur),
     scanWhile src (fun ch => isAlnumC ch || ch == '_') cur, none)
  else if c = nulChar then
    -- the EOF case rewinds `current`, so the cursor is unchanged
    (.EOF, cur, none)
  else if c = '\n' then (.NEWLINE, cur + 1, none)
  else if c = '+' then (.PLUS, cur + 1, none)
  else if c = '-' then (.MINUS, cur + 1, none)
  else if c = '*' then (.STAR, cur + 1, none)
  else if c = '/' then (.SLASH, cur + 1, none)
  else if c = '(' then (.LPAREN, cur + 1, none)
  else if c = ')' then (.RPAREN, cur + 1, none)
  else if c = '[' then (.LBRACKET, cur + 1, none)
  else if c = ']' then (.RBRACKET, cur + 1, none)
  else if c = ',' then (.COMMA, cur + 1, none)
  else if c = '=' then
    if charAt src (cur + 1) = '=' then (.EQ, cur + 2, none)
    else (.EQUALS, cur + 1, none)
  else if c = ':' then (.COLON, cur + 1, none)
  else if c = '!' then
    if charAt src (cur + 1) = '=' then (.NE, cur + 2, none)
    else (.ERROR, cur + 1, some "invalid syntax")
  else if c = '<' then
    if charAt src (cur + 1) = '=' then (.LE, cur + 2, none)
    else (.LT, cur + 1, none)
  else if c = '>' then
    if charAt src (cur + 1) = '=' then (.GE, cur + 2, none)
    else (.GT, cur + 1, none)
  else if c = '"' then
    -- the C loop that finds the closing quote is `scanWhile strChar`, inlined
    if charAt src (scanWhile src strChar (cur + 1)) = '"' then
      (.STRING_LITERAL, scanWhile src strChar (cur + 1) + 1, none)
    else (.ERROR, scanWhile src strChar (cur + 1), some "unterminated string")
  else (.ERROR, cur + 1, some "unexpected character")

/-- The effect of the character switch on the whole lexer state. -/
def parse_token_switch_on (src : List Char) (l : Lexer) (c : Char) : TokenType × Lexer :=
  match parse_token_switch_core src l.start l.current c with
  | (t, cur, none) => (t, { l with current := cur })
  | (t, cur, some m) => (t, { l with current := cur, errorMessage := some m })

/-- The character switch of `parse_token`, reading the character under the
cursor (`switch (*lexer->current++)` in C, preceded by the digit and
identifier tests). -/
def parse_token_switch (src : List Char) (l : Lexer) : TokenType × Lexer :=
  parse_token_switch_on src l (charAt src l.current)

/-- The classification part of `parse_token` (everything after the
indentation handling): `skip_whitespace` followed by the character switch. -/
def parse_token_classify (src : List Char) (l0 : Lexer) : TokenType × Lexer :=
  parse_token_switch src (skip_whitespace src l0)

/-- `parse_token` from `lexer.c`. -/
def parse_token (src : List Char) (l : Lexer) : TokenType × Lexer :=
  if l.emptyLine then
    let cur1 := scanWhile src (· == ' ') l.current
    let indent := cur1 - l.current
    let l1 := { l with current := cur1 }
    if charAt src cur1 ≠ '#' ∧ charAt src cur1 ≠ '\n' ∧ indent ≠ l1.indentStack.headD 0 then
      handle_indentation_change l1 indent
    else parse_token_classify src l1
  else parse_token_classify src l

theorem check_keyword_ne (src : List Char) (ptr stop : Nat) (ks : List Char)
    (t u : TokenType) (ht : t ≠ u) (hI : TokenType.IDENTIFIER ≠ u) :
    check_keyword src ptr stop ks t ≠ u := by
  induction ks generalizing ptr with
  | nil => unfold check_keyword; split <;> simp_all
  | cons k ks ih => unfold check_keyword; split
                    · exact ih (ptr + 1)
                    · exact hI

theorem handle_identifier_ne (src : List Char) (start stop : Nat) (u : TokenType)
    (hI : TokenType.IDENTIFIER ≠ u)
    (h1 : TokenType.KW_ELSE ≠ u) (h2 : TokenType.KW_ELIF ≠ u)
    (h3 : TokenType.KW_IF ≠ u) (h4 : TokenType.KW_PASS ≠ u)
    (h5 : TokenType.KW_PRINT ≠ u) (h6 : TokenType.KW_WHILE ≠ u) :
    handle_identifier src start stop ≠ u := by
  unfold handle_identifier
  split_ifs <;> first
    | exact check_keyword_ne _ _ _ _ _ _ h1 hI
    | exact check_keyword_ne _ _ _ _ _ _ h2 hI
    | exact check_keyword_ne _ _ _ _ _ _ h3 hI
    | exact check_keyword_ne _ _ _ _ _ _ h4 hI
    | exact check_keyword_ne _ _ _ _ _ _ h5 hI
    | exact check_keyword_ne _ _ _ _ _ _ h6 hI
    | exact hI

theorem handle_indentation_change_types (l : Lexer) (indent : Nat) :
    (handle_indentation_change l indent).1 = .ERROR ∨
      (handle_indentation_change l indent).1 = .INDENT ∨
      (handle_indentation_change l indent).1 = .DEDENT := by
  simp only [handle_indentation_change]
  split_ifs <;> simp

theorem handle_indentation_change_ne_newline (l : Lexer) (indent : Nat) :
    (handle_indentation_change l indent).1 ≠ .NEWLINE := by
  simp only [handle_indentation_change]
  split_ifs <;> simp

theorem handle_indentation_change_ne_eof (l : Lexer) (indent : Nat) :
    (handle_indentation_change l indent).1 ≠ .EOF := by
  simp only [handle_indentation_change]
  split_ifs <;> simp

theorem skip_whitespace_current_ge (src : List Char) (l : Lexer) :
    l.current ≤ (skip_whitespace src l).current := by
  simp only [skip_whitespace]
  split
  · exact le_trans (scanWhile_ge src (· == ' ') l.current)
      (scanWhile_ge src (· != '\n') _)
  · exact scanWhile_ge src (· == ' ') l.current

/-- Case-analysis principle for the character switch, mirroring its
`if`/`else` chain; each hypothesis covers one case of the C `switch`. -/
theorem parse_token_switch_core_elim (src : List Char) (start cur : Nat) (c : Char)
    (P : TokenType × Nat × Option String → Prop)
    (h01 : isDigitC c = true → P (.INT_LITERAL, scanWhile src isDigitC cur, none))
    (h02 : (isAlphaC c || c == '_') = true →
      P (handle_identifier src start (scanWhile src (fun ch => isAlnumC ch || ch == '_') cur),
         scanWhile src (fun ch => isAlnumC ch || ch == '_') cur, none))
    (h03 : c = nulChar → P (.EOF, cur, none))
    (h04 : c = '\n' → P (.NEWLINE, cur + 1, none))
    (h05 : c = '+' → P (.PLUS, cur + 1, none))
    (h06 : c = '-' → P (.MINUS, cur + 1, none))
    (h07 : c = '*' → P (.STAR, cur + 1, none))
    (h08 : c = '/' → P (.SLASH, cur + 1, none))
    (h09 : c = '(' → P (.LPAREN, cur + 1, none))
    (h10 : c = ')' → P (.RPAREN, cur + 1, none))
    (h11 : c = '[' → P (.LBRACKET, cur + 1, none))
    (h12 : c = ']' → P (.RBRACKET, cur + 1, none))
    (h13 : c = ',' → P (.COMMA, cur + 1, none))
    (h14 : c = '=' → charAt src (cur + 1) = '=' → P (.EQ, cur + 2, none))
    (h15 : c = '=' → ¬charAt src (cur + 1) = '=' → P (.EQUALS, cur + 1, none))
    (h16 : c = ':' → P (.COLON, cur + 1, none))
    (h17 : c = '!' → charAt src (cur + 1) = '=' → P (.NE, cur + 2, none))
    (h18 : c = '!' → ¬charAt src (cur + 1) = '=' → P (.ERROR, cur + 1, some "invalid syntax"))
    (h19 : c = '<' → charAt src (cur + 1) = '=' → P (.LE, cur + 2, none))
    (h20 : c = '<' → ¬charAt src (cur + 1) = '=' → P (.LT, cur + 1, none))
    (h21 : c = '>' → charAt src (cur + 1) = '=' → P (.GE, cur + 2, none))
    (h22 : c = '>' → ¬charAt src (cur + 1) = '=' → P (.GT, cur + 1, none))
    (h23 : c = '"' → charAt src (scanWhile src strChar (cur + 1)) = '"' →
      P (.STRING_LITERAL, scanWhile src strChar (cur + 1) + 1, none))
    (h24 : c = '"' → ¬charAt src (scanWhile src strChar (cur + 1)) = '"' →
      P (.ERROR, scanWhile src strChar (cur + 1), some "unterminated string"))
    (h25 : P (.ERROR, cur + 1, some "unexpected character")) :
    P (parse_token_switch_core src start cur c) := by
  rw [parse_token_switch_core]
  by_cases k01 : isDigitC c = true
  · rw [if_pos k01]; exact h01 k01
  rw [if_neg k01]
  by_cases k02 : (isAlphaC c || c == '_') = true
  · rw [if_pos k02]; exact h02 k02
  rw [if_neg k02]
  by_cases k03 : c = nulChar
  · rw [if_pos k03]; exact h03 k03
  rw [if_neg k03]
  by_cases k04 : c = '\n'
  · rw [if_pos k04]; exact h04 k04
  rw [if_neg k04]
  by_cases k05 : c = '+'
  · rw [if_pos k05]; exact h05 k05
  rw [if_neg k05]
  by_cases k06 : c = '-'
  · rw [if_pos k06]; exact h06 k06
  rw [if_neg k06]
  by_cases k07 : c = '*'
  · rw [if_pos k07]; exact h07 k07
  rw [if_neg k07]
  by_cases k08 : c = '/'
  · rw [if_pos k08]; exact h08 k08
  rw [if_neg k08]
  by_cases k09 : c = '('
  · rw [if_pos k09]; exact h09 k09
  rw [if_neg k09]
  by_cases k10 : c = ')'
  · rw [if_pos k10]; exact h10 k10
  rw [if_neg k10]
  by_cases k11 : c = '['
  · rw [if_pos k11]; exact h11 k11
  rw [if_neg k11]
  by_cases k12 : c = ']'
  · rw [if_pos k12]; exact h12 k12
  rw [if_neg k12]
  by_cases k13 : c = ','
  · rw [if_pos k13]; exact h13 k13
  rw [if_neg k13]
  by_cases k14 : c = '='
  · rw [if_pos k14]
    by_cases k14b : charAt src (cur + 1) = '='
    · rw [if_pos k14b]; exact h14 k14 k14b
    · rw [if_neg k14b]; exact h15 k14 k14b
  rw [if_neg k14]
  by_cases k16 : c = ':'
  · rw [if_pos k16]; exact h16 k16
  rw [if_neg k16]
  by_cases k17 : c = '!'
  · rw [if_pos k17]
    by_cases k17b : charAt src (cur + 1) = '='
    · rw [if_pos k17b]; exact h17 k17 k17b
    · rw [if_neg k17b]; exact h18 k17 k17b
  rw [if_neg k17]
  by_cases k19 : c = '<'
  · rw [if_pos k19]
    by_cases k19b : charAt src (cur + 1) = '='
    · rw [if_pos k19b]; exact h19 k19 k19b
    · rw [if_neg k19b]; exact h20 k19 k19b
  rw [if_neg k19]
  by_cases k21 : c = '>'
  · rw [if_pos k21]
    by_cases k21b : charAt src (cur + 1) = '='
    · rw [if_pos k21b]; exact h21 k21 k21b
    · rw [if_neg k21b]; exact h22 k21 k21b
  rw [if_neg k21]
  by_cases k23 : c = '"'
  · rw [if_pos k23]
    by_cases k23b : charAt src (scanWhile src strChar (cur + 1)) = '"'
    · rw [if_pos k23b]; exact h23 k23 k23b
    · rw [if_neg k23b]; exact h24 k23 k23b
  rw [if_neg k23]
  exact h25

/-- A NEWLINE result of the character switch comes only from a `'\n'`
under the cursor. -/
theorem parse_token_switch_core_newline_char (src : List Char) (start cur : Nat) (c : Char)
    (h : (parse_token_switch_core src start cur c).1 = .NEWLINE) : c = '\n' := by
  revert h
  refine parse_token_switch_core_elim src start cur c
    (fun r => r.1 = TokenType.NEWLINE → c = '\n') ?_ ?_ ?_ ?_ ?_ ?_ ?_ ?_ ?_ ?_ ?_ ?_ ?_ ?_ ?_ ?_ ?_ ?_ ?_ ?_ ?_ ?_ ?_ ?_ ?_
  all_goals try (exact fun hb h => absurd h (handle_identifier_ne src _ _ _
    (by decide) (by decide) (by decide) (by decide) (by decide) (by decide) (by decide)))
  all_goals intros
  all_goals simp_all

/-- An EOF result of the character switch comes only from the terminator. -/
theorem parse_token_switch_core_eof_char (src : List Char) (start cur : Nat) (c : Char)
    (h : (parse_token_switch_core src start cur c).1 = .EOF) : c = nulChar := by
  revert h
  refine parse_token_switch_core_elim src start cur c
    (fun r => r.1 = TokenType.EOF → c = nulChar) ?_ ?_ ?_ ?_ ?_ ?_ ?_ ?_ ?_ ?_ ?_ ?_ ?_ ?_ ?_ ?_ ?_ ?_ ?_ ?_ ?_ ?_ ?_ ?_ ?_
  all_goals try (exact fun hb h => absurd h (handle_identifier_ne src _ _ _
    (by decide) (by decide) (by decide) (by decide) (by decide) (by decide) (by decide)))
  all_goals intros
  all_goals simp_all

/-- The character switch never produces a DEDENT. -/
theorem parse_token_switch_core_ne_dedent (src : List Char) (start cur : Nat) (c : Char)
    (h : (parse_token_switch_core src start cur c).1 = .DEDENT) : False := by
  revert h
  refine parse_token_switch_core_elim src start cur c
    (fun r => r.1 = TokenType.DEDENT → False) ?_ ?_ ?_ ?_ ?_ ?_ ?_ ?_ ?_ ?_ ?_ ?_ ?_ ?_ ?_ ?_ ?_ ?_ ?_ ?_ ?_ ?_ ?_ ?_ ?_
  all_goals try (exact fun hb h => absurd h (handle_identifier_ne src _ _ _
    (by decide) (by decide) (by decide) (by decide) (by decide) (by decide) (by decide)))
  all_goals intros
  all_goals simp_all

/-- Evaluating the switch at a newline character. -/
theorem parse_token_switch_core_nl (src : List Char) (start cur : Nat) :
    parse_token_switch_core src start cur '\n' = (.NEWLINE, cur + 1, none) := rfl

/-- Evaluating the switch at the terminator. -/
theorem parse_token_switch_core_nul (src : List Char) (start cur : Nat) :
    parse_token_switch_core src start cur nulChar = (.EOF, cur, none) := rfl

theorem parse_token_switch_on_fst (src : List Char) (l : Lexer) (c : Char) :
    (parse_token_switch_on src l c).1 =
      (parse_token_switch_core src l.start l.current c).1 := by
  unfold parse_token_switch_on
  rcases hc : parse_token_switch_core src l.start l.current c with ⟨t, cur, _ | m⟩ <;>
    simp [hc]

theorem parse_token_switch_on_current (src : List Char) (l : Lexer) (c : Char) :
    (parse_token_switch_on src l c).2.current =
      (parse_token_switch_core src l.start l.current c).2.1 := by
  unfold parse_token_switch_on
  rcases hc : parse_token_switch_core src l.start l.current c with ⟨t, cur, _ | m⟩ <;>
    simp [hc]

/-- The switch at a newline character, on the whole lexer state. -/
theorem parse_token_switch_on_nl (src : List Char) (l : Lexer) :
    parse_token_switch_on src l '\n' = (.NEWLINE, { l with current := l.current + 1 }) := rfl

/-- The switch at the terminator, on the whole lexer state. -/
theorem parse_token_switch_on_nul (src : List Char) (l : Lexer) :
    parse_token_switch_on src l nulChar = (.EOF, l) := rfl

theorem parse_token_switch_newline (src : List Char) (l : Lexer)
    (h : (parse_token_switch src l).1 = .NEWLINE) :
    (parse_token_switch src l).2.current = l.current + 1 ∧
      charAt src l.current = '\n' := by
  unfold parse_token_switch at h ⊢
  have h1 : (parse_token_switch_core src l.start l.current (charAt src l.current)).1 =
      .NEWLINE := by
    rw [← parse_token_switch_on_fst]; exact h
  have hc := parse_token_switch_core_newline_char _ _ _ _ h1
  rw [hc, parse_token_switch_on_nl]
  exact ⟨rfl, rfl⟩

theorem parse_token_classify_newline (src : List Char) (l : Lexer)
    (h : (parse_token_classify src l).1 = .NEWLINE) :
    l.current < (parse_token_classify src l).2.current ∧
      (parse_token_classify src l).2.current ≤ src.length := by
  have hge := skip_whitespace_current_ge src l
  simp only [parse_token_classify] at h ⊢
  have h2 := parse_token_switch_newline src _ h
  have hlt : (skip_whitespace src l).current < src.length := by
    apply lt_length_of_charAt_ne src _
    rw [h2.2]; decide
  rw [h2.1]
  omega

theorem parse_token_newline (src : List Char) (l : Lexer)
    (h : (parse_token src l).1 = .NEWLINE) :
    l.current < (parse_token src l).2.current ∧
      (parse_token src l).2.current ≤ src.length := by
  simp only [parse_token] at h ⊢
  split_ifs at h ⊢
  · exact absurd h (handle_indentation_change_ne_newline _ _)
  · have hge := scanWhile_ge src (· == ' ') l.current
    have h2 := parse_token_classify_newline src _ h
    refine ⟨lt_of_le_of_lt hge h2.1, h2.2⟩
  · exact parse_token_classify_newline src l h

/-- The pending-dedent branch of `lexer_next_token`. -/
def dedent_emit (l : Lexer) : Token × Lexer :=
  (make_token { l with pendingDedents := l.pendingDedents - 1 } .DEDENT,
   { l with pendingDedents := l.pendingDedents - 1 })

/-- The final part of the `lexer_next_token` loop body: record whether the
token ends a line and return it together with the new state. -/
def emit_token (src : List Char) (l : Lexer) : Token × Lexer :=
  (make_token { (parse_token src l).2 with emptyLine := (parse_token src l).1 == .NEWLINE }
     (parse_token src l).1,
   { (parse_token src l).2 with emptyLine := (parse_token src l).1 == .NEWLINE })

/-- Structural worker for `lexer_next_token`; the fuel bounds the number of
suppressed blank-line NEWLINEs, which each consume at least one character.
With fuel 0 the blank-line check is skipped; this case is reached only when
the cursor is already past the end of the buffer, where `parse_token` can
never yield a NEWLINE, so the check would be dead anyway. -/
def lexer_next_token_go (src : List Char) : Nat → Lexer → Token × Lexer
  | 0, l =>
      if 0 < l.pendingDedents then dedent_emit l
      else emit_token src l
  | fuel + 1, l =>
      if 0 < l.pendingDedents then dedent_emit l
      else if (parse_token src l).1 = .NEWLINE ∧ (parse_token src l).2.emptyLine then
        lexer_next_token_go src fuel (parse_token src l).2
      else emit_token src l

/-- `lexer_next_token` from `lexer.c`: report any pending dedents, then
parse the next token, skipping newlines of blank or comment-only lines. -/
def lexer_next_token (src : List Char) (l : Lexer) : Token × Lexer :=
  lexer_next_token_go src (src.length + 1 - l.current) l

theorem lexer_next_token_go_high (src : List Char) (fuel : Nat) (l : Lexer)
    (hc : src.length < l.current) :
    lexer_next_token_go src fuel l = lexer_next_token_go src 0 l := by
  cases fuel with
  | zero => rfl
  | succ f =>
    simp only [lexer_next_token_go]
    by_cases hp : 0 < l.pendingDedents
    · rw [if_pos hp, if_pos hp]
    rw [if_neg hp, if_neg hp]
    rw [if_neg]
    rintro ⟨h1, -⟩
    have := parse_token_newline src l h1
    omega

theorem lexer_next_token_go_congr (src : List Char) (fuel : Nat) :
    ∀ fuel' l, src.length + 1 - l.current ≤ fuel →
      src.length + 1 - l.current ≤ fuel' →
      lexer_next_token_go src fuel l = lexer_next_token_go src fuel' l := by
  induction fuel with
  | zero =>
    intro fuel' l h h'
    exact (lexer_next_token_go_high src fuel' l (by omega)).symm
  | succ f ih =>
    intro fuel' l h h'
    cases fuel' with
    | zero => exact lexer_next_token_go_high src (f + 1) l (by omega)
    | succ g =>
      simp only [lexer_next_token_go]
      by_cases hp : 0 < l.pendingDedents
      · rw [if_pos hp, if_pos hp]
      rw [if_neg hp, if_neg hp]
      by_cases hs : (parse_token src l).1 = .NEWLINE ∧ (parse_token src l).2.emptyLine = true
      · rw [if_pos hs, if_pos hs]
        have hn := parse_token_newline src l hs.1
        exact ih g (parse_token src l).2 (by omega) (by omega)
      · rw [if_neg hs, if_neg hs]

/-- `lexer_next_token`, pending-dedents branch. -/
theorem lexer_next_token_pending (src : List Char) (l : Lexer)
    (hp : 0 < l.pendingDedents) :
    lexer_next_token src l = dedent_emit l := by
  unfold lexer_next_token
  cases hM : src.length + 1 - l.current with
  | zero => simp only [lexer_next_token_go]; rw [if_pos hp]
  | succ M => simp only [lexer_next_token_go]; rw [if_pos hp]

/-- `lexer_next_token`, blank-line skip branch. -/
theorem lexer_next_token_skip (src : List Char) (l : Lexer)
    (hp : ¬0 < l.pendingDedents)
    (hs : (parse_token src l).1 = .NEWLINE ∧ (parse_token src l).2.emptyLine = true) :
    lexer_next_token src l = lexer_next_token src (parse_token src l).2 := by
  unfold lexer_next_token
  have hn := parse_token_newline src l hs.1
  obtain ⟨M, hM⟩ : ∃ M, src.length + 1 - l.current = M + 1 :=
    ⟨src.length - l.current, by omega⟩
  rw [hM]
  simp only [lexer_next_token_go]
  rw [if_neg hp, if_pos hs]
  exact lexer_next_token_go_congr src M _ _ (by omega) (by omega)

/-- `lexer_next_token`, token-emitting branch. -/
theorem lexer_next_token_emit (src : List Char) (l : Lexer)
    (hp : ¬0 < l.pendingDedents)
    (hs : ¬((parse_token src l).1 = .NEWLINE ∧ (parse_token src l).2.emptyLine = true)) :
    lexer_next_token src l = emit_token src l := by
  unfold lexer_next_token
  cases hM : src.length + 1 - l.current with
  | zero => simp only [lexer_next_token_go]; rw [if_neg hp]
  | succ M => simp only [lexer_next_token_go]; rw [if_neg hp, if_neg hs]

/-- The token stream: `lexerRun src l n` is the result of the `n`-th call
to `lexer_next_token` (0-based) together with the state after it, starting
from state `l`. -/
def lexerRun (src : List Char) (l : Lexer) : Nat → Token × Lexer
  | 0 => lexer_next_token src l
  | n + 1 => lexerRun src (lexer_next_token src l).2 n

theorem scanWhile_at_end (src : List Char) (p : Char → Bool) (i : Nat)
    (h : src.length ≤ i) : scanWhile src p i = i := by
  unfold scanWhile
  rw [Nat.sub_eq_zero_of_le h]
  rfl

theorem skip_whitespace_at_end (src : List Char) (l : Lexer)
    (h : src.length ≤ l.current) :
    skip_whitespace src l = { l with start := l.current } := by
  simp only [skip_whitespace, scanWhile_at_end src _ _ h]
  rw [if_neg]
  intro hq
  rw [charAt_eq_nul_of_le src _ h] at hq
  exact absurd hq (by decide)

theorem parse_token_classify_at_end (src : List Char) (l : Lexer)
    (h : src.length ≤ l.current) (hempty : l.emptyLine = false) :
    parse_token src l = (.EOF, { l with start := l.current }) := by
  unfold parse_token
  rw [if_neg (by rw [hempty]; simp)]
  unfold parse_token_classify parse_token_switch
  rw [skip_whitespace_at_end src l h]
  have : charAt src ({ l with start := l.current } : Lexer).current = nulChar :=
    charAt_eq_nul_of_le src _ h
  rw [this, parse_token_switch_on_nul]

/-- The lexer state after end-of-input dedents have begun: both pointers
sit on the terminator, the indentation stack is back to `[0]`, and `p`
dedents are still owed. -/
def drainState (c : Nat) (msg : Option String) (p : Nat) : Lexer :=
  { start := c, current := c, errorMessage := msg, indentStack := [0],
    pendingDedents := p, emptyLine := false }

theorem lexer_next_token_drain_pos (src : List Char) (c : Nat) (msg : Option String)
    (p : Nat) (hp : 0 < p) :
    lexer_next_token src (drainState c msg p) =
      (⟨.DEDENT, c, c⟩, drainState c msg (p - 1)) := by
  rw [lexer_next_token_pending src _ (by simpa [drainState] using hp)]
  rfl

theorem parse_token_drain_zero (src : List Char) (c : Nat) (msg : Option String)
    (h : src.length ≤ c) :
    parse_token src (drainState c msg 0) = (.EOF, drainState c msg 0) := by
  have h2 := parse_token_classify_at_end src (drainState c msg 0) (by simpa [drainState]) rfl
  simpa [drainState] using h2

theorem lexer_next_token_drain_zero (src : List Char) (c : Nat) (msg : Option String)
    (h : src.length ≤ c) :
    lexer_next_token src (drainState c msg 0) =
      (⟨.EOF, c, c⟩, drainState c msg 0) := by
  rw [lexer_next_token_emit src _ (by simp [drainState])
    (by rw [parse_token_drain_zero src c msg h]; simp)]
  unfold emit_token
  rw [parse_token_drain_zero src c msg h]
  rfl

theorem lexerRun_drain (src : List Char) (c : Nat) (msg : Option String)
    (h : src.length ≤ c) :
    ∀ n p, (lexerRun src (drainState c msg p) n).1.type =
      if n < p then .DEDENT else .EOF := by
  intro n
  induction n with
  | zero =>
    intro p
    match p with
    | 0 => simp only [lexerRun, lexer_next_token_drain_zero src c msg h]; simp
    | q + 1 =>
      simp only [lexerRun, lexer_next_token_drain_pos src c msg (q + 1) (by omega)]; simp
  | succ n ih =>
    intro p
    match p with
    | 0 =>
      simp only [lexerRun, lexer_next_token_drain_zero src c msg h]
      rw [ih 0]
      simp
    | q + 1 =>
      simp only [lexerRun, lexer_next_token_drain_pos src c msg (q + 1) (by omega),
        Nat.add_sub_cancel]
      rw [ih q]
      by_cases hq : n < q
      · rw [if_pos hq, if_pos (by omega)]
      · rw [if_neg hq, if_neg (by omega)]

theorem popIndentLevels_zero (ls : List Nat) (p : Nat) (hpos : ∀ x ∈ ls, 0 < x) :
    popIndentLevels 0 (ls ++ [0]) p = ([0], p + ls.length) := by
  induction ls generalizing p with
  | nil => rfl
  | cons a tl ih =>
    have ha : 0 < a := hpos a (by simp)
    cases tl with
    | nil =>
      simp only [List.cons_append, List.nil_append, popIndentLevels, if_pos ha]
      simp
    | cons b tl' =>
      simp only [List.cons_append, popIndentLevels, if_pos ha]
      have h1 := ih (p + 1) (fun x hx => hpos x (by simp [hx]))
      simp only [List.cons_append] at h1
      exact h1.trans (by simp [Prod.ext_iff, List.length_cons] <;> omega)

/-- The first `lexer_next_token` call at end of input with a non-trivial
indentation stack: the whole stack above 0 is popped, a first zero-width
DEDENT is returned, and the remaining dedents become pending. -/
theorem lexer_next_token_at_end_dedent (src : List Char) (l : Lexer)
    (a : Nat) (ls' : List Nat)
    (hcur : src.length ≤ l.current) (hempty : l.emptyLine = true)
    (hpend : l.pendingDedents = 0) (hstack : l.indentStack = a :: ls' ++ [0])
    (hpos : ∀ x ∈ a :: ls', 0 < x) :
    lexer_next_token src l =
      (⟨.DEDENT, l.current, l.current⟩,
        drainState l.current l.errorMessage ls'.length) := by
  have ha : 0 < a := hpos a (by simp)
  have hpt : parse_token src l =
      (.DEDENT, { l with start := l.current, indentStack := [0], pendingDedents := ls'.length }) := by
    simp only [parse_token, hempty, if_true, scanWhile_at_end src _ _ hcur, Nat.sub_self]
    rw [if_pos]
    · simp only [handle_indentation_change, hstack, Nat.sub_zero]
      rw [if_neg (by simp <;> omega)]
      have hpop := popIndentLevels_zero (a :: ls') 0 (by simpa using hpos)
      simp only [List.cons_append, Nat.zero_add, List.length_cons] at hpop
      rw [hpend]
      simp only [List.cons_append]
      rw [hpop]
      rw [if_neg (by simp)]
      rfl
    · refine ⟨?_, ?_, ?_⟩
      · rw [charAt_eq_nul_of_le src _ hcur]; decide
      · rw [charAt_eq_nul_of_le src _ hcur]; decide
      · simp [hstack]; omega
  rw [lexer_next_token_emit src l (by omega) (by rw [hpt]; simp)]
  unfold emit_token
  rw [hpt]
  rfl

theorem charAt_last (src : List Char) (hnl : src.getLast? = some '\n') :
    0 < src.length ∧ charAt src (src.length - 1) = '\n' := by
  rw [List.getLast?_eq_getElem?] at hnl
  have hlen : 0 < src.length := by
    by_contra hc
    rw [List.getElem?_eq_none (by omega)] at hnl
    simp at hnl
  refine ⟨hlen, ?_⟩
  simp [charAt, List.getD_eq_getElem?_getD, hnl]

/-- With a newline-terminated source, a token that starts where the
terminator is read cannot have skipped a comment, so the whitespace
skipper leaves `start = current`. -/
theorem skip_whitespace_start_eq (src : List Char) (l : Lexer)
    (hnl : src.getLast? = some '\n')
    (h : charAt src (skip_whitespace src l).current = nulChar) :
    (skip_whitespace src l).start = (skip_whitespace src l).current := by
  obtain ⟨hlen, hlast⟩ := charAt_last src hnl
  simp only [skip_whitespace] at h ⊢
  by_cases hq : charAt src (scanWhile src (fun x => x == ' ') l.current) = '#'
  · rw [if_pos hq] at h ⊢
    exfalso
    have hs1 : scanWhile src (fun x => x == ' ') l.current < src.length := by
      apply lt_length_of_charAt_ne
      rw [hq]; decide
    have hj := scanWhile_le src (fun x => x != '\n')
      (scanWhile src (fun x => x == ' ') l.current) (src.length - 1)
      (by omega) (by rw [hlast]; decide)
    have hstop := scanWhile_stop src (fun x => x != '\n')
      (scanWhile src (fun x => x == ' ') l.current)
    rw [not_and_or] at hstop
    rcases hstop with hstop | hstop
    · omega
    · rw [h] at hstop
      exact hstop (by decide)
  · rw [if_neg hq] at h ⊢

theorem parse_token_eof_span (src : List Char) (l : Lexer)
    (hnl : src.getLast? = some '\n')
    (h : (parse_token src l).1 = .EOF) :
    (parse_token src l).2.start = (parse_token src l).2.current := by
  have main : ∀ l1 : Lexer, (parse_token_classify src l1).1 = .EOF →
      (parse_token_classify src l1).2.start = (parse_token_classify src l1).2.current := by
    intro l1 h1
    simp only [parse_token_classify, parse_token_switch] at h1 ⊢
    have hfst := parse_token_switch_on_fst src (skip_whitespace src l1)
      (charAt src (skip_whitespace src l1).current)
    rw [hfst] at h1
    have hc := parse_token_switch_core_eof_char _ _ _ _ h1
    rw [hc, parse_token_switch_on_nul]
    exact skip_whitespace_start_eq src l1 hnl hc
  simp only [parse_token] at h ⊢
  split_ifs at h ⊢
  · exact absurd h (handle_indentation_change_ne_eof _ _)
  · exact main _ h
  · exact main _ h

theorem handle_indentation_change_dedent (l : Lexer) (indent : Nat)
    (h : (handle_indentation_change l indent).1 = .DEDENT) :
    (handle_indentation_change l indent).2.start = l.current - indent ∧
      (handle_indentation_change l indent).2.current = l.current := by
  simp only [handle_indentation_change] at h ⊢
  split_ifs at h ⊢
  all_goals try simp at h
  exact ⟨rfl, rfl⟩

/-- A DEDENT produced by `parse_token` spans exactly the leading spaces of
the line that triggered it. -/
theorem parse_token_dedent_span (src : List Char) (l : Lexer)
    (h : (parse_token src l).1 = .DEDENT) :
    (parse_token src l).2.start = l.current ∧
      (parse_token src l).2.current = scanWhile src (fun c => c == ' ') l.current := by
  have noclassify : ∀ l1 : Lexer, (parse_token_classify src l1).1 = .DEDENT → False := by
    intro l1 h1
    simp only [parse_token_classify, parse_token_switch] at h1
    rw [parse_token_switch_on_fst] at h1
    exact parse_token_switch_core_ne_dedent _ _ _ _ h1
  have hge := scanWhile_ge src (fun c => c == ' ') l.current
  simp only [parse_token] at h ⊢
  split_ifs at h ⊢
  · have hd := handle_indentation_change_dedent _ _ h
    refine ⟨?_, ?_⟩
    · rw [hd.1]
      show scanWhile src (fun x => x == ' ') l.current -
        (scanWhile src (fun x => x == ' ') l.current - l.current) = l.current
      omega
    · rw [hd.2]
  · exact absurd h (fun hh => noclassify _ hh)
  · exact absurd h (fun hh => noclassify _ hh)

theorem lexer_next_token_go_eof_span (src : List Char) (hnl : src.getLast? = some '\n') :
    ∀ fuel l, (lexer_next_token_go src fuel l).1.type = .EOF →
      (lexer_next_token_go src fuel l).1.start = (lexer_next_token_go src fuel l).1.stop := by
  intro fuel
  induction fuel with
  | zero =>
    intro l h
    simp only [lexer_next_token_go] at h ⊢
    split_ifs at h ⊢ with hp
    · simp [dedent_emit, make_token] at h
    · simp only [emit_token, make_token] at h ⊢
      exact parse_token_eof_span src l hnl h
  | succ f ih =>
    intro l h
    simp only [lexer_next_token_go] at h ⊢
    split_ifs at h ⊢ with hp hs
    · simp [dedent_emit, make_token] at h
    · exact ih _ h
    · simp only [emit_token, make_token] at h ⊢
      exact parse_token_eof_span src l hnl h

/-- Every EOF token produced by `lexer_next_token` on a newline-terminated
source is zero-width. -/
theorem lexer_next_token_eof_span (src : List Char) (l : Lexer)
    (hnl : src.getLast? = some '\n')
    (h : (lexer_next_token src l).1.type = .EOF) :
    (lexer_next_token src l).1.start = (lexer_next_token src l).1.stop :=
  lexer_next_token_go_eof_span src hnl _ l h

/-- C4: when the end of input is reached with the indentation stack still
holding `k > 0` levels above 0 (and no dedents already pending), the token
stream from that state is exactly `k` synthetic DEDENT tokens followed by
EOF on every later call: the `n`-th call returns DEDENT for `n < k` and EOF
for every `n ≥ k`. -/
theorem c4_eof_drains_dedents_then_eof_forever (src : List Char) (l : Lexer)
    (ls : List Nat) (k : Nat)
    (hcur : src.length ≤ l.current) (hempty : l.emptyLine = true)
    (hpend : l.pendingDedents = 0) (hstack : l.indentStack = ls ++ [0])
    (hpos : ∀ x ∈ ls, 0 < x) (hlen : ls.length = k) (hk : 0 < k) :
    ∀ n, (lexerRun src l n).1.type = if n < k then .DEDENT else .EOF := by
  cases ls with
  | nil => simp at hlen; omega
  | cons a ls' =>
    have hfirst := lexer_next_token_at_end_dedent src l a ls' hcur hempty hpend hstack
      (fun x hx => hpos x hx)
    have hlen' : ls'.length + 1 = k := by simpa using hlen
    intro n
    cases n with
    | zero =>
      simp only [lexerRun, hfirst]
      rw [if_pos hk]
    | succ n =>
      have hstep : (lexer_next_token src l).2 =
          drainState l.current l.errorMessage ls'.length := by rw [hfirst]
      simp only [lexerRun, hstep]
      rw [lexerRun_drain src l.current l.errorMessage hcur n ls'.length]
      by_cases hn : n < ls'.length
      · rw [if_pos hn, if_pos (by omega)]
      · rw [if_neg hn, if_neg (by omega)]

theorem c4_eof_drains_dedents_then_eof_forever_witness :
    ((("ab".toList : List Char).length ≤ 2 ∧ (2 : Nat) ≤ 2 ∧ ([2, 1] : List Nat).length = 2) ∧
      (∀ n, (lexerRun "ab".toList
          ⟨2, 2, none, [2, 1, 0], 0, true⟩ n).1.type =
        if n < 2 then .DEDENT else .EOF)) ∧
    ((lexerRun "ab".toList ⟨2, 2, none, [2, 1, 0], 0, true⟩ 0).1.type = .DEDENT ∧
      (lexerRun "ab".toList ⟨2, 2, none, [2, 1, 0], 0, true⟩ 1).1.type = .DEDENT ∧
      (lexerRun "ab".toList ⟨2, 2, none, [2, 1, 0], 0, true⟩ 2).1.type = .EOF ∧
      (lexerRun "ab".toList ⟨2, 2, none, [2, 1, 0], 0, true⟩ 50).1.type = .EOF) := by
  have h := c4_eof_drains_dedents_then_eof_forever "ab".toList
    ⟨2, 2, none, [2, 1, 0], 0, true⟩ [2, 1] 2
    (by decide) rfl rfl rfl (by decide) rfl (by decide)
  refine ⟨⟨⟨by decide, by decide, by decide⟩, h⟩, ?_, ?_, ?_, ?_⟩
  · rw [h 0]; decide
  · rw [h 1]; decide
  · rw [h 2]; decide
  · rw [h 50]; decide

/-- C9: amended span property.  Every EOF token produced on a
newline-terminated source is zero-width (`start = stop`), but a DEDENT is
not in general zero-width: when `parse_token` reports a DEDENT, the
resulting state spans the leading spaces of the line that triggered it —
`start` is the start of the line and `current` is the end of its
indentation — so the emitted DEDENT token has width equal to the new
indentation level, which is zero only when dedenting to column 0. -/
theorem c9_eof_zero_width_dedent_spans_indent (src : List Char) (l : Lexer)
    (hnl : src.getLast? = some '\n') :
    ((lexer_next_token src l).1.type = .EOF →
      (lexer_next_token src l).1.start = (lexer_next_token src l).1.stop) ∧
    ((parse_token src l).1 = .DEDENT →
      (parse_token src l).2.start = l.current ∧
      (parse_token src l).2.current = scanWhile src (fun c => c == ' ') l.current) :=
  ⟨fun h => lexer_next_token_eof_span src l hnl h,
   fun h => parse_token_dedent_span src l h⟩

theorem c9_eof_zero_width_dedent_spans_indent_witness :
    ("a\n".toList.getLast? = some '\n') ∧
    (((lexer_next_token "a\n".toList lexer_init).1.type = .EOF →
      (lexer_next_token "a\n".toList lexer_init).1.start =
        (lexer_next_token "a\n".toList lexer_init).1.stop) ∧
    ((parse_token "a\n".toList lexer_init).1 = .DEDENT →
      (parse_token "a\n".toList lexer_init).2.start = lexer_init.current ∧
      (parse_token "a\n".toList lexer_init).2.current =
        scanWhile "a\n".toList (fun c => c == ' ') lexer_init.current)) :=
  ⟨by decide, c9_eof_zero_width_dedent_spans_indent "a\n".toList lexer_init (by decide)⟩

theorem c9_dedent_not_zero_width_counterexample :
    (lexerRun "a\n b\n  c\n d\n".toList lexer_init 8).1.type = .DEDENT ∧
    (lexerRun "a\n b\n  c\n d\n".toList lexer_init 8).1.stop =
      (lexerRun "a\n b\n  c\n d\n".toList lexer_init 8).1.start + 1 := by
  decide

/-- Binary operators, from `ast.h` (`BinaryOp`). -/
inductive BinaryOp where
  | ADD | SUB | MUL | DIV | EQ | NE | LT | LE | GT | GE
deriving DecidableEq

mutual

/-- Expressions, from the AST used by `parser.c` and `main.c`: literal and
name nodes keep their `[start, stop)` span into the source buffer; the
elements of a list display form a `next`-chain in the C, modelled by the
mutual `ExprList`. -/
inductive Expr where
  | intLiteral (start stop : Nat)
  | strLiteral (start stop : Nat)
  | name (start stop : Nat)
  | binary (left : Expr) (op : BinaryOp) (right : Expr)
  | subscript (receiver index : Expr) (stop : Nat)
  | listLiteral (start stop : Nat) (elems : ExprList)

/-- The `next`-chain of expressions used for list-display elements. -/
inductive ExprList where
  | nil
  | cons (head : Expr) (tail : ExprList)

end

deriving instance DecidableEq for Expr, ExprList

mutual

/-- Statements, from the AST used by `parser.c` and `main.c`; statement
sequences (the C `next`-chain) are modelled by the mutual `StmtList`. -/
inductive Stmt where
  | exprS (e : Expr)
  | assignment (left right : Expr)
  | whileS (cond : Expr) (body : StmtList)
  | ifS (cond : Expr) (thenBody elseBody : StmtList)
  | passS
  | printS (e : Expr)

/-- The `next`-chain of statements. -/
inductive StmtList where
  | nil
  | cons (head : Stmt) (tail : StmtList)

end

deriving instance DecidableEq for Stmt, StmtList

/-- Number of elements of an expression chain (the count loop of
`eval_expr`, `EXPR_LIST_LITERAL` case). -/
def ExprList.lengthE : ExprList → Nat
  | .nil => 0
  | .cons _ tl => tl.lengthE + 1

/-- `expr->kind == EXPR_NAME`. -/
def exprIsName : Expr → Bool
  | .name _ _ => true
  | _ => false

/-- `expr->kind == EXPR_SUBSCRIPT`. -/
def exprIsSubscript : Expr → Bool
  | .subscript _ _ _ => true
  | _ => false

/-- Parser state, from the `Parser` struct of `parser.c`: the lexer, the
current (one-token lookahead) token, and the diagnostics reported so far.
`assertFail` records a violated C `assert`; `outOfFuel` records that the
structural fuel of the embedding ran out (never the case on the concrete
inputs below). -/
structure ParserState where
  lexer : Lexer
  current : Token
  diags : List String
  assertFail : Bool
  outOfFuel : Bool
deriving DecidableEq

/-- `error` from `parser.c`: report a diagnostic at the current token; for
an ERROR token the message comes from the lexer instead. -/
def perror (p : ParserState) (message : String) : ParserState :=
  let message := if p.current.type = .ERROR then p.lexer.errorMessage.getD "" else message
  { p with diags := p.diags ++ [message] }

/-- `consume` from `parser.c`: return the current token and advance the
lexer (asserts that the current token is neither ERROR nor EOF). -/
def consume (src : List Char) (p : ParserState) : Token × ParserState :=
  let p := if p.current.type = .ERROR ∨ p.current.type = .EOF then
    { p with assertFail := true } else p
  let r := lexer_next_token src p.lexer
  (p.current, { p with lexer := r.2, current := r.1 })

/-- `match` from `parser.c` (a Lean keyword, hence `matchTok`): consume the
current token when it has the expected type, otherwise report an error. -/
def matchTok (src : List Char) (p : ParserState) (type : TokenType)
    (message : String) : Bool × ParserState :=
  if p.current.type ≠ type then (false, perror p message)
  else (true, (consume src p).2)

/-- The six relational token types mapped to their operator
(`relational_expr`); any other token ends the production. -/
def relationalOp : TokenType → Option BinaryOp
  | .EQ => some .EQ
  | .NE => some .NE
  | .GT => some .GT
  | .GE => some .GE
  | .LT => some .LT
  | .LE => some .LE
  | _ => none

mutual

/-- `expression_list` from `parser.c`: expressions with a comma between as
well as after them being consumed whenever present — the grammar comment
says `expression (COMMA expression)* COMMA?` but the loop only checks for
the sentinel after an optional comma. -/
def expression_list : Nat → List Char → TokenType → ParserState →
    Option ExprList × ParserState
  | 0, _, _, p => (none, { p with outOfFuel := true })
  | fuel + 1, src, sentinel, p =>
    match expression fuel src p with
    | (none, p) => (none, p)
    | (some e, p) =>
      let p := if p.current.type = .COMMA then (consume src p).2 else p
      if p.current.type = sentinel then (some (.cons e .nil), p)
      else
        match expression_list fuel src sentinel p with
        | (some rest, p) => (some (.cons e rest), p)
        | (none, p) => (none, p)

/-- `primary` from `parser.c`. -/
def primary : Nat → List Char → ParserState → Option Expr × ParserState
  | 0, _, p => (none, { p with outOfFuel := true })
  | fuel + 1, src, p =>
    if p.current.type = .INT_LITERAL then
      let r := consume src p
      (some (.intLiteral r.1.start r.1.stop), r.2)
    else if p.current.type = .STRING_LITERAL then
      let r := consume src p
      (some (.strLiteral r.1.start r.1.stop), r.2)
    else if p.current.type = .IDENTIFIER then
      let r := consume src p
      (some (.name r.1.start r.1.stop), r.2)
    else if p.current.type = .LPAREN then
      let p := (consume src p).2
      match expression fuel src p with
      | (some e, p) =>
        match matchTok src p .RPAREN "expected closing parenthesis" with
        | (true, p) => (some e, p)
        | (false, p) => (none, p)
      | (none, p) => (none, p)
    else if p.current.type = .LBRACKET then
      let r := consume src p
      let start := r.1.start
      let p := r.2
      if p.current.type = .RBRACKET then
        let r2 := consume src p
        (some (.listLiteral start r2.1.stop .nil), r2.2)
      else
        match expression_list fuel src .RBRACKET p with
        | (some es, p) =>
          let stop := p.current.stop
          match matchTok src p .RBRACKET "expected closing bracket" with
          | (true, p) => (some (.listLiteral start stop es), p)
          | (false, p) => (none, p)
        | (none, p) => (none, p)
    else
      (none, perror p "expected expression")

/-- The subscript loop of `postfix_expr`. -/
def postfix_loop : Nat → List Char → Option Expr → ParserState →
    Option Expr × ParserState
  | 0, _, _, p => (none, { p with outOfFuel := true })
  | fuel + 1, src, e, p =>
    if p.current.type = .LBRACKET then
      let p := (consume src p).2
      match expression fuel src p with
      | (none, p) => (none, p)
      | (some index, p) =>
        let stop := p.current.stop
        match matchTok src p .RBRACKET "expected closing bracket" with
        | (false, p) => (none, p)
        | (true, p) =>
          match e with
          | some e => postfix_loop fuel src (some (.subscript e index stop)) p
          | none => (none, { p with assertFail := true })
    else (e, p)

/-- `postfix_expr` from `parser.c`. -/
def postfix_expr : Nat → List Char → ParserState → Option Expr × ParserState
  | 0, _, p => (none, { p with outOfFuel := true })
  | fuel + 1, src, p =>
    match primary fuel src p with
    | (e, p) => postfix_loop fuel src e p

/-- The operator loop of `multiplicative_expr`. -/
def multiplicative_loop : Nat → List Char → Option Expr → ParserState →
    Option Expr × ParserState
  | 0, _, _, p => (none, { p with outOfFuel := true })
  | fuel + 1, src, result, p =>
    match result with
    | none => (none, p)
    | some r =>
      if p.current.type = .STAR ∨ p.current.type = .SLASH then
        let op := if p.current.type = .STAR then BinaryOp.MUL else BinaryOp.DIV
        let p := (consume src p).2
        match postfix_expr fuel src p with
        | (some right, p) => multiplicative_loop fuel src (some (.binary r op right)) p
        | (none, p) => (none, p)
      else (some r, p)

/-- `multiplicative_expr` from `parser.c`. -/
def multiplicative_expr : Nat → List Char → ParserState → Option Expr × ParserState
  | 0, _, p => (none, { p with outOfFuel := true })
  | fuel + 1, src, p =>
    match postfix_expr fuel src p with
    | (e, p) => multiplicative_loop fuel src e p

/-- The operator loop of `additive_expr`. -/
def additive_loop : Nat → List Char → Option Expr → ParserState →
    Option Expr × ParserState
  | 0, _, _, p => (none, { p with outOfFuel := true })
  | fuel + 1, src, result, p =>
    match result with
    | none => (none, p)
    | some r =>
      if p.current.type = .PLUS ∨ p.current.type = .MINUS then
        let op := if p.current.type = .PLUS then BinaryOp.ADD else BinaryOp.SUB
        let p := (consume src p).2
        match multiplicative_expr fuel src p with
        | (some right, p) => additive_loop fuel src (some (.binary r op right)) p
        | (none, p) => (none, p)
      else (some r, p)

/-- `additive_expr` from `parser.c`. -/
def additive_expr : Nat → List Char → ParserState → Option Expr × ParserState
  | 0, _, p => (none, { p with outOfFuel := true })
  | fuel + 1, src, p =>
    match multiplicative_expr fuel src p with
    | (e, p) => additive_loop fuel src e p

/-- `relational_expr` from `parser.c` (non-associative: at most one
relational operator). -/
def relational_expr : Nat → List Char → ParserState → Option Expr × ParserState
  | 0, _, p => (none, { p with outOfFuel := true })
  | fuel + 1, src, p =>
    match additive_expr fuel src p with
    | (none, p) => (none, p)
    | (some r, p) =>
      match relationalOp p.current.type with
      | none => (some r, p)
      | some op =>
        let p := (consume src p).2
        match additive_expr fuel src p with
        | (some right, p) => (some (.binary r op right), p)
        | (none, p) => (none, p)

/-- `expression` from `parser.c`. -/
def expression : Nat → List Char → ParserState → Option Expr × ParserState
  | 0, _, p => (none, { p with outOfFuel := true })
  | fuel + 1, src, p => relational_expr fuel src p

end

mutual

/-- `simple_statement` from `parser.c`. -/
def simple_statement : Nat → List Char → ParserState → Option Stmt × ParserState
  | 0, _, p => (none, { p with outOfFuel := true })
  | fuel + 1, src, p =>
    if p.current.type = .KW_PRINT then
      let p := (consume src p).2
      match matchTok src p .LPAREN "expected (" with
      | (true, p) =>
        match expression fuel src p with
        | (some e, p) =>
          match matchTok src p .RPAREN "expected )" with
          | (true, p) => (some (.printS e), p)
          | (false, p) => (none, p)
        | (none, p) => (none, p)
      | (false, p) => (none, p)
    else if p.current.type = .KW_PASS then
      (some .passS, (consume src p).2)
    else
      match expression fuel src p with
      | (none, p) => (none, p)
      | (some e, p) =>
        if p.current.type ≠ .EQUALS then (some (.exprS e), p)
        else if ¬(exprIsName e || exprIsSubscript e) then
          (none, { p with diags := p.diags ++ ["cannot assign to expression here"] })
        else
          let p := (consume src p).2
          match expression fuel src p with
          | (some right, p) => (some (.assignment e right), p)
          | (none, p) => (none, p)

/-- `else_block` from `parser.c`. -/
def else_block : Nat → List Char → ParserState → Option StmtList × ParserState
  | 0, _, p => (none, { p with outOfFuel := true })
  | fuel + 1, src, p =>
    let p := if p.current.type ≠ .KW_ELSE then { p with assertFail := true } else p
    let p := (consume src p).2
    match matchTok src p .COLON "expected :" with
    | (false, p) => (none, p)
    | (true, p) => block fuel src p

/-- `elif_block` from `parser.c` (also parses `if`, which differs only in
the keyword). -/
def elif_block : Nat → List Char → ParserState → Option Stmt × ParserState
  | 0, _, p => (none, { p with outOfFuel := true })
  | fuel + 1, src, p =>
    let p := if p.current.type ≠ .KW_ELIF ∧ p.current.type ≠ .KW_IF then
      { p with assertFail := true } else p
    let p := (consume src p).2
    match expression fuel src p with
    | (none, p) => (none, p)
    | (some cond, p) =>
      match matchTok src p .COLON "expected :" with
      | (false, p) => (none, p)
      | (true, p) =>
        match block fuel src p with
        | (none, p) => (none, p)
        | (some thenBody, p) =>
          let r : Option StmtList × ParserState :=
            if p.current.type = .KW_ELSE then else_block fuel src p
            else if p.current.type = .KW_ELIF then
              match elif_block fuel src p with
              | (some s, p) => (some (.cons s .nil), p)
              | (none, p) => (none, p)
            else (some (.cons .passS .nil), p)
          match r with
          | (some elseBody, p) => (some (.ifS cond thenBody elseBody), p)
          | (none, p) => (none, p)

/-- `statement` from `parser.c`. -/
def statement : Nat → List Char → ParserState → Option Stmt × ParserState
  | 0, _, p => (none, { p with outOfFuel := true })
  | fuel + 1, src, p =>
    if p.current.type = .KW_WHILE then
      let p := (consume src p).2
      match expression fuel src p with
      | (none, p) => (none, p)
      | (some cond, p) =>
        match matchTok src p .COLON "expected :" with
        | (false, p) => (none, p)
        | (true, p) =>
          match block fuel src p with
          | (some body, p) => (some (.whileS cond body), p)
          | (none, p) => (none, p)
    else if p.current.type = .KW_IF then
      elif_block fuel src p
    else
      match simple_statement fuel src p with
      | (some stmt, p) =>
        match matchTok src p .NEWLINE "expected end of line" with
        | (true, p) => (some stmt, p)
        | (false, p) => (none, p)
      | (none, p) => (none, p)

/-- `statements` from `parser.c`: one or more statements up to (not
consuming) the sentinel; a failed statement anywhere makes the whole
sequence fail. -/
def statements : Nat → List Char → TokenType → ParserState →
    Option StmtList × ParserState
  | 0, _, _, p => (none, { p with outOfFuel := true })
  | fuel + 1, src, sentinel, p =>
    match statement fuel src p with
    | (none, p) => (none, p)
    | (some s, p) =>
      if p.current.type = sentinel then (some (.cons s .nil), p)
      else
        match statements fuel src sentinel p with
        | (some rest, p) => (some (.cons s rest), p)
        | (none, p) => (none, p)

/-- `block` from `parser.c`. -/
def block : Nat → List Char → ParserState → Option StmtList × ParserState
  | 0, _, p => (none, { p with outOfFuel := true })
  | fuel + 1, src, p =>
    match matchTok src p .NEWLINE "newline expected" with
    | (false, p) => (none, p)
    | (true, p) =>
      match matchTok src p .INDENT "indent expected" with
      | (false, p) => (none, p)
      | (true, p) =>
        match statements fuel src .DEDENT p with
        | (some result, p) =>
          let p := if p.current.type ≠ .DEDENT then { p with assertFail := true } else p
          (some result, (consume src p).2)
        | (none, p) => (none, p)

end

/-- `parse_file` from `parser.c`: initialise the lexer, read the first
token, parse `statements` up to EOF (asserting that a successful parse
ends on EOF). -/
def parse_file (fuel : Nat) (src : List Char) : Option StmtList × ParserState :=
  let r := lexer_next_token src lexer_init
  let p : ParserState := ⟨r.2, r.1, [], false, false⟩
  match statements fuel src .EOF p with
  | (result, p) =>
    let p := if result.isSome ∧ p.current.type ≠ .EOF then
      { p with assertFail := true } else p
    (result, p)

/-- The parse of a whole program, with fuel ample for the input length
(the fuel bounds the depth of the recursive descent; running out is
recorded in `outOfFuel` and never happens on the inputs considered). -/
def parseProgram (src : List Char) : Option StmtList × ParserState :=
  parse_file (16 * (src.length + 1)) src

/-- C8 (amended): in a bracketed list display the comma between
consecutive elements is optional — `expression_list` consumes a comma when
present but does not require one — so `[1 2]`, `[1, 2]` and `[1, 2,]` all
parse successfully to a two-element list display, without diagnostics. -/
theorem c8_list_display_comma_optional :
    ((parseProgram "[1 2]\n".toList).1 =
      some (.cons (.exprS (.listLiteral 0 5
        (.cons (.intLiteral 1 2) (.cons (.intLiteral 3 4) .nil)))) .nil) ∧
      (parseProgram "[1 2]\n".toList).2.diags = [] ∧
      (parseProgram "[1 2]\n".toList).2.assertFail = false ∧
      (parseProgram "[1 2]\n".toList).2.outOfFuel = false) ∧
    (parseProgram "[1, 2]\n".toList).1 =
      some (.cons (.exprS (.listLiteral 0 6
        (.cons (.intLiteral 1 2) (.cons (.intLiteral 4 5) .nil)))) .nil) ∧
    (parseProgram "[1, 2,]\n".toList).1 =
      some (.cons (.exprS (.listLiteral 0 7
        (.cons (.intLiteral 1 2) (.cons (.intLiteral 4 5) .nil)))) .nil) :=
  ⟨⟨rfl, rfl, rfl, rfl⟩, rfl, rfl⟩

theorem c8_adjacent_elements_no_comma_parse_counterexample :
    (parseProgram "[1 2]\n".toList).1.isSome = true ∧
    (parseProgram "[1 2]\n".toList).2.diags = [] :=
  ⟨rfl, rfl⟩

/-- Heap objects of the interpreter: `NxInt`, `NxStr`, `NxList` (length
plus the address of its backing `NxObjectArray`) and `NxObjectArray`
(whose entries are object addresses, `0` standing for the C `NULL`). -/
inductive HObj where
  | int (value : Int)
  | str (data : List Char)
  | list (length : Nat) (items : Nat)
  | arr (data : List Nat)
deriving DecidableEq

/-- Signed 64-bit wrap-around, the behaviour of the C `int64_t`
arithmetic used throughout `main.c`. -/
def wrap64 (v : Int) : Int := (v + 2 ^ 63) % 2 ^ 64 - 2 ^ 63

/-- The address of the statically allocated small-integer singleton for
`value` (`cached_ints` of `nx_int.c`, values `-1..255`): addresses `1`
to `257`, below every dynamically allocated address. -/
def cachedIntAddr (value : Int) : Nat := (value + 2).toNat

/-- Interpreter state: the GC heap as an association list from addresses
(dynamic allocation starts at `258`, above the static int cache) to
objects, the next fresh address, the variable environment of `main.c`
(`Env`, an association list like the C linked list), plus two observation
channels: `trace` records every expression node as its evaluation begins
(most recent first) — the formal counterpart of how many times a
subexpression is evaluated — and `out` records what `print` writes. -/
structure InterpState where
  heap : List (Nat × HObj)
  next : Nat
  env : List (List Char × Nat)
  trace : List Expr
  out : List String
deriving DecidableEq

deriving instance DecidableEq for Except

/-- Reading an object from memory: the static small-int cache occupies
addresses `1..257` (address `a` holding the integer `a - 2`), everything
else is looked up in the dynamic heap. -/
def heapGet (heap : List (Nat × HObj)) (a : Nat) : Option HObj :=
  if 1 ≤ a ∧ a ≤ 257 then some (.int ((a : Int) - 2))
  else List.lookup a heap

/-- Overwriting the object stored at an (existing) address. -/
def heapSet (heap : List (Nat × HObj)) (a : Nat) (o : HObj) : List (Nat × HObj) :=
  heap.map (fun e => if e.1 = a then (a, o) else e)

/-- `nxo_alloc`/`gc_alloc` as seen by the evaluator: allocate a fresh
address for the object (collection is modelled separately with the
collector itself; it never changes which address an allocation returns). -/
def nxo_alloc (s : InterpState) (o : HObj) : Nat × InterpState :=
  (s.next, { s with heap := (s.next, o) :: s.heap, next := s.next + 1 })

/-- `nx_int_create` from `nx_int.c`: values in `[-1, 255]` yield the
statically allocated singleton — no allocation, state untouched — all
others a fresh heap object. -/
def nx_int_create (value : Int) (s : InterpState) : Nat × InterpState :=
  if -1 ≤ value ∧ value ≤ 255 then (cachedIntAddr value, s)
  else nxo_alloc s (.int value)

/-- The digit loop of `int_from_str` from `main.c`: accumulate into a
(wrapping) signed 64-bit value, aborting as soon as the accumulator turns
negative. -/
def int_from_str_go : List Char → Int → Except String Int
  | [], value => .ok value
  | c :: cs, value =>
      if ¬('0' ≤ c ∧ c ≤ '9') then .error "assertion failure: digit expected"
      else
        let value := wrap64 (value * 10 + ((c.toNat : Int) - 48))
        if value < 0 then .error "Integer literal too large"
        else int_from_str_go cs value

/-- `int_from_str` from `main.c` (the digit span is passed as a list). -/
def int_from_str (str : List Char) : Except String Int :=
  int_from_str_go str 0

/-- The characters of the source span `[start, stop)`. -/
def sliceStr (src : List Char) (start stop : Nat) : List Char :=
  (src.drop start).take (stop - start)

/-- `nx_list_create` from `nx_list.c`: asserts a positive initial
capacity, then allocates the backing array (zero-filled, as
`nx_object_array_create`) and the list object. -/
def nx_list_create (initial_capacity : Int) (s : InterpState) :
    Except String (Nat × InterpState) :=
  if ¬(initial_capacity > 0) then .error "assertion failure: initial_capacity > 0"
  else
    let r1 := nxo_alloc s (.arr (List.replicate initial_capacity.toNat 0))
    let r2 := nxo_alloc r1.2 (.list 0 r1.1)
    .ok (r2.1, r2.2)

/-- `nx_list_append` from `nx_list.c`: when full, move to a fresh backing
array of capacity `2 * size + 1` (old contents copied, rest zeroed, as
`nx_object_array_copy`), then store the item and bump the length. -/
def nx_list_append (s : InterpState) (la item : Nat) : Except String InterpState :=
  match heapGet s.heap la with
  | some (.list len itemsAddr) =>
    match heapGet s.heap itemsAddr with
    | some (.arr data) =>
      let grown : Nat × List Nat × InterpState :=
        if len = data.length then
          let newData := data ++ List.replicate (data.length + 1) 0
          let rn := nxo_alloc s (.arr newData)
          (rn.1, newData, { rn.2 with heap := heapSet rn.2.heap la (.list len rn.1) })
        else (itemsAddr, data, s)
      match grown with
      | (itemsAddr2, data2, s) =>
        let s := { s with heap := heapSet s.heap itemsAddr2 (.arr (data2.set len item)) }
        .ok { s with heap := heapSet s.heap la (.list (len + 1) itemsAddr2) }
    | _ => .error "assertion failure: list backing array"
  | _ => .error "assertion failure: nx_list_is_instance"

/-- `nxo_check_index` from `defs.c`: the index must be an int; a negative
value wraps once by adding the length; anything still outside `[0, len)`
is a fatal error.  (`eval_expr` and `exec_stmt` in `main.c` do NOT call
this helper for list subscripts — they check the raw value inline.) -/
def nxo_check_index (heap : List (Nat × HObj)) (indexAddr : Nat) (len : Int) :
    Except String Int :=
  if ¬(len ≥ 0) then .error "assertion failure: len >= 0"
  else
    match heapGet heap indexAddr with
    | some (.int i0) =>
      let i := if i0 < 0 then i0 + len else i0
      if i < 0 ∨ i ≥ len then .error "Index out of range"
      else .ok i
    | _ => .error "Index must be an integer"

/-- `eval_binop_int` from `main.c`: `int64_t` arithmetic (wrapping, like
the C build), truncating division with a zero check, and comparisons
yielding the int `0` or `1`. -/
def eval_binop_int (left : Int) (op : BinaryOp) (right : Int) : Except String Int :=
  match op with
  | .ADD => .ok (wrap64 (left + right))
  | .SUB => .ok (wrap64 (left - right))
  | .MUL => .ok (wrap64 (left * right))
  | .DIV =>
      if right = 0 then .error "Division by zero"
      else .ok (wrap64 (Int.tdiv left right))
  | .EQ => .ok (if left = right then 1 else 0)
  | .NE => .ok (if left ≠ right then 1 else 0)
  | .LT => .ok (if left < right then 1 else 0)
  | .LE => .ok (if left ≤ right then 1 else 0)
  | .GT => .ok (if right < left then 1 else 0)
  | .GE => .ok (if right ≤ left then 1 else 0)

/-- `eval_binop` from `main.c`: ints use `eval_binop_int`, `+` on two
strings concatenates, everything else is a fatal type error. -/
def eval_binop (s : InterpState) (la : Nat) (op : BinaryOp) (ra : Nat) :
    Except String (Nat × InterpState) :=
  match heapGet s.heap la, heapGet s.heap ra with
  | some (.int lv), some (.int rv) =>
    match eval_binop_int lv op rv with
    | .ok v => .ok (nx_int_create v s)
    | .error m => .error m
  | some (.str a), some (.str b) =>
    if op = .ADD then .ok (nxo_alloc s (.str (a ++ b)))
    else .error "Operands must be integers"
  | _, _ => .error "Operands must be integers"

/-- `env_set` from `main.c`: overwrite the variable when present,
otherwise add a fresh one to the list. -/
def env_set : List (List Char × Nat) → List Char → Nat → List (List Char × Nat)
  | [], name, a => [(name, a)]
  | e :: rest, name, a =>
      if e.1 == name then (name, a) :: rest
      else e :: env_set rest name a

/-- `env_get` from `main.c`: a missing variable is a fatal error. -/
def env_get (env : List (List Char × Nat)) (name : List Char) : Except String Nat :=
  match List.lookup name env with
  | some a => .ok a
  | none => .error ("Undefined variable: " ++ String.mk name)

mutual

/-- `eval_expr` from `main.c`.  The node being evaluated is recorded on
`trace` at entry; the result is the address of the value. -/
def evalExpr (src : List Char) : Expr → InterpState → Except String (Nat × InterpState)
  | e, s0 =>
    let s : InterpState := { s0 with trace := e :: s0.trace }
    match e with
    | .intLiteral start stop =>
      match int_from_str (sliceStr src start stop) with
      | .ok v => .ok (nx_int_create v s)
      | .error m => .error m
    | .strLiteral start stop =>
      if ¬(charAt src start = '"' ∧ charAt src (stop - 1) = '"') then
        .error "assertion failure: string literal quotes"
      else .ok (nxo_alloc s (.str (sliceStr src (start + 1) (stop - 1))))
    | .name start stop =>
      match env_get s.env (sliceStr src start stop) with
      | .ok a => .ok (a, s)
      | .error m => .error m
    | .binary l op r =>
      match evalExpr src l s with
      | .error m => .error m
      | .ok (la, s1) =>
        match evalExpr src r s1 with
        | .error m => .error m
        | .ok (ra, s2) => eval_binop s2 la op ra
    | .subscript recv idx _ =>
      match evalExpr src recv s with
      | .error m => .error m
      | .ok (ra, s1) =>
        match heapGet s1.heap ra with
        | some (.list len itemsAddr) =>
          match evalExpr src idx s1 with
          | .error m => .error m
          | .ok (ia, s2) =>
            match heapGet s2.heap ia with
            | some (.int i) =>
              if i < 0 ∨ i ≥ (len : Int) then .error "Index out of range"
              else
                match heapGet s2.heap itemsAddr with
                | some (.arr data) => .ok (data.getD i.toNat 0, s2)
                | _ => .error "assertion failure: list backing array"
            | _ => .error "Index must be an integer"
        | _ => .error "Subscripted value must be a list"
    | .listLiteral _ _ elems =>
      match nx_list_create (elems.lengthE : Int) s with
      | .error m => .error m
      | .ok (la, s1) => evalExprList src elems la s1

/-- The element loop of the `EXPR_LIST_LITERAL` case of `eval_expr`:
evaluate each element and append it to the list. -/
def evalExprList (src : List Char) :
    ExprList → Nat → InterpState → Except String (Nat × InterpState)
  | .nil, la, s => .ok (la, s)
  | .cons e tl, la, s =>
    match evalExpr src e s with
    | .error m => .error m
    | .ok (va, s1) =>
      match nx_list_append s1 la va with
      | .error m => .error m
      | .ok s2 => evalExprList src tl la s2

end

/-- `eval_cond` from `main.c`: the condition value must be an int; the
result is its comparison against zero. -/
def eval_cond (src : List Char) (e : Expr) (s : InterpState) :
    Except String (Bool × InterpState) :=
  match evalExpr src e s with
  | .error m => .error m
  | .ok (a, s1) =>
    match heapGet s1.heap a with
    | some (.int v) => .ok (v ≠ 0, s1)
    | _ => .error "Condition must be an integer"

mutual

/-- `exec_stmt` from `main.c`; the fuel bounds loop iterations (the C
`while` may not terminate; running out of fuel is reported as an error
distinct from every interpreter message). -/
def exec_stmt (src : List Char) : Nat → Stmt → InterpState → Except String InterpState
  | 0, _, _ => .error "out of fuel"
  | fuel + 1, stmt, s =>
    match stmt with
    | .exprS e =>
      match evalExpr src e s with
      | .ok r => .ok r.2
      | .error m => .error m
    | .assignment left right =>
      match left with
      | .name start stop =>
        match evalExpr src right s with
        | .error m => .error m
        | .ok (ra, s1) =>
          .ok { s1 with env := env_set s1.env (sliceStr src start stop) ra }
      | .subscript recv idx _ =>
        match evalExpr src recv s with
        | .error m => .error m
        | .ok (ra, s1) =>
          match heapGet s1.heap ra with
          | some (.list len itemsAddr) =>
            match evalExpr src idx s1 with
            | .error m => .error m
            | .ok (ia, s2) =>
              match heapGet s2.heap ia with
              | some (.int i) =>
                if i < 0 ∨ i ≥ (len : Int) then .error "Index out of range"
                else
                  match evalExpr src right s2 with
                  | .error m => .error m
                  | .ok (va, s3) =>
                    match heapGet s3.heap itemsAddr with
                    | some (.arr data) =>
                      .ok { s3 with heap := heapSet s3.heap itemsAddr (.arr (data.set i.toNat va)) }
                    | _ => .error "assertion failure: list backing array"
              | _ => .error "Index must be an integer"
          | _ => .error "Subscripted value must be a list"
      | _ => .error "assertion failure: assignment target kind"
    | .whileS cond body =>
      match eval_cond src cond s with
      | .error m => .error m
      | .ok (true, s1) =>
        match exec_stmts src fuel body s1 with
        | .error m => .error m
        | .ok s2 => exec_stmt src fuel (.whileS cond body) s2
      | .ok (false, s1) => .ok s1
    | .ifS cond thenB elseB =>
      match eval_cond src cond s with
      | .error m => .error m
      | .ok (true, s1) => exec_stmts src fuel thenB s1
      | .ok (false, s1) => exec_stmts src fuel elseB s1
    | .passS => .ok s
    | .printS e =>
      match evalExpr src e s with
      | .error m => .error m
      | .ok (a, s1) =>
        match heapGet s1.heap a with
        | some (.int v) => .ok { s1 with out := s1.out ++ [toString v] }
        | some (.str d) => .ok { s1 with out := s1.out ++ [String.mk d] }
        | _ => .error "Unexpected value type in print()"

/-- `exec_stmts` from `main.c`: execute the chain in order (a no-op for
the empty chain, as when `parse_file` returned `NULL`). -/
def exec_stmts (src : List Char) : Nat → StmtList → InterpState → Except String InterpState
  | 0, _, _ => .error "out of fuel"
  | _ + 1, .nil, s => .ok s
  | fuel + 1, .cons st tl, s =>
    match exec_stmt src fuel st s with
    | .error m => .error m
    | .ok s1 => exec_stmts src fuel tl s1

end

/-- The interpreter state at the start of `run` from `main.c`: empty heap
(dynamic addresses from `258`), empty environment, nothing traced or
printed. -/
def initInterpState : InterpState :=
  { heap := [], next := 258, env := [], trace := [], out := [] }

/-- `run` from `main.c` (with the already-created `arg` value): parse the
file, bind `arg`, execute the statement list — which is empty, executing
nothing, when the parse failed. -/
def runModel (fuel : Nat) (src : List Char) (argValue : Int) : Except String InterpState :=
  let r := nx_int_create argValue initInterpState
  let s := { r.2 with env := env_set r.2.env "arg".toList r.1 }
  match parseProgram src with
  | (some stmts, _) => exec_stmts src fuel stmts s
  | (none, _) => .ok s

/-- Running a program with fuel ample for the loop-free inputs below. -/
def interp (src : List Char) : Except String InterpState :=
  runModel (16 * (src.length + 1)) src 0

/-- Is the expression the int literal with the given span?  Used to count
evaluations of a specific right-hand side in the trace. -/
def isIntLitSpan (a b : Nat) : Expr → Bool
  | .intLiteral x y => x == a && y == b
  | _ => false

/-- Bridging lemma: when the parse succeeds, a run of the interpreter is
the execution of the parsed statement list from the initial environment
(the `arg` variable bound to the cached int `0` at address `2`). -/
theorem interp_parse_some (src : List Char) (ast : StmtList)
    (h : (parseProgram src).1 = some ast) :
    interp src = exec_stmts src (16 * (src.length + 1)) ast
      ⟨[], 258, [("arg".toList, 2)], [], []⟩ := by
  rcases hp : parseProgram src with ⟨o, p⟩
  rw [hp] at h
  simp only at h
  subst h
  simp only [interp, runModel, hp]
  rfl

/-- Bridging lemma: when the parse fails, `run` passes the NULL statement
list to `exec_stmts`, which executes nothing — the final state is the
initial environment, with an empty trace and no output. -/
theorem interp_parse_none (src : List Char)
    (h : (parseProgram src).1 = none) :
    interp src = .ok ⟨[], 258, [("arg".toList, 2)], [], []⟩ := by
  rcases hp : parseProgram src with ⟨o, p⟩
  rw [hp] at h
  simp only at h
  subst h
  simp only [interp, runModel, hp]
  rfl

/-- C1 (amended): for an assignment whose target is a subscript,
`exec_stmt` evaluates the receiver, then the index, checks the range, then
evaluates the right-hand side exactly once and stores that (first and
only) result — the final state is `s3`, the state after a single
evaluation of the right-hand side, with only the element updated. -/
theorem c1_subscript_assignment_evaluates_rhs_once
    (src : List Char) (recv idx rhs : Expr) (sp fuel : Nat)
    (s s1 s2 s3 : InterpState) (ra ia va len itemsAddr : Nat) (i : Int) (data : List Nat)
    (h1 : evalExpr src recv s = .ok (ra, s1))
    (h2 : heapGet s1.heap ra = some (.list len itemsAddr))
    (h3 : evalExpr src idx s1 = .ok (ia, s2))
    (h4 : heapGet s2.heap ia = some (.int i))
    (h5 : ¬(i < 0 ∨ i ≥ (len : Int)))
    (h6 : evalExpr src rhs s2 = .ok (va, s3))
    (h7 : heapGet s3.heap itemsAddr = some (.arr data)) :
    exec_stmt src (fuel + 1) (.assignment (.subscript recv idx sp) rhs) s =
      .ok { s3 with heap := heapSet s3.heap itemsAddr (.arr (data.set i.toNat va)) } := by
  simp only [exec_stmt, h1, h2, h3, h4, h6, h7]
  rw [if_neg h5]

theorem c1_subscript_assignment_evaluates_rhs_once_witness :
    evalExpr "x[0]=7\n".toList (.intLiteral 5 6)
        ⟨[(300, .arr [1]), (301, .list 1 300)], 302, [("x".toList, 301)],
          [.intLiteral 2 3, .name 0 1], []⟩ =
      .ok (9, ⟨[(300, .arr [1]), (301, .list 1 300)], 302, [("x".toList, 301)],
        [.intLiteral 5 6, .intLiteral 2 3, .name 0 1], []⟩) ∧
    exec_stmt "x[0]=7\n".toList 1
        (.assignment (.subscript (.name 0 1) (.intLiteral 2 3) 4) (.intLiteral 5 6))
        ⟨[(300, .arr [1]), (301, .list 1 300)], 302, [("x".toList, 301)], [], []⟩ =
      .ok ⟨[(300, .arr [9]), (301, .list 1 300)], 302, [("x".toList, 301)],
        [.intLiteral 5 6, .intLiteral 2 3, .name 0 1], []⟩ :=
  ⟨rfl,
    c1_subscript_assignment_evaluates_rhs_once "x[0]=7\n".toList
      (.name 0 1) (.intLiteral 2 3) (.intLiteral 5 6) 4 0
      ⟨[(300, .arr [1]), (301, .list 1 300)], 302, [("x".toList, 301)], [], []⟩
      ⟨[(300, .arr [1]), (301, .list 1 300)], 302, [("x".toList, 301)],
        [.name 0 1], []⟩
      ⟨[(300, .arr [1]), (301, .list 1 300)], 302, [("x".toList, 301)],
        [.intLiteral 2 3, .name 0 1], []⟩
      ⟨[(300, .arr [1]), (301, .list 1 300)], 302, [("x".toList, 301)],
        [.intLiteral 5 6, .intLiteral 2 3, .name 0 1], []⟩
      301 2 9 1 300 0 [1] rfl rfl rfl rfl (by decide) rfl rfl⟩

theorem c1_rhs_single_evaluation_counterexample :
    (parseProgram "[7][0] = 1000\n".toList).1 =
      some (.cons (.assignment
        (.subscript (.listLiteral 0 3 (.cons (.intLiteral 1 2) .nil)) (.intLiteral 4 5) 6)
        (.intLiteral 9 13)) .nil) ∧
    (interp "[7][0] = 1000\n".toList).map
        (fun s => (s.trace.filter (isIntLitSpan 9 13)).length) =
      .ok 1 := by
  have hparse : (parseProgram "[7][0] = 1000\n".toList).1 =
      some (.cons (.assignment
        (.subscript (.listLiteral 0 3 (.cons (.intLiteral 1 2) .nil)) (.intLiteral 4 5) 6)
        (.intLiteral 9 13)) .nil) := rfl
  refine ⟨hparse, ?_⟩
  rw [interp_parse_some _ _ hparse]
  decide

/-- C2 (amended): a list subscript read checks the raw index value: an
in-range index yields the element, but any negative index — including
those in `[-len, 0)` that the spec says wrap — is a fatal
index-out-of-range error.  The wrapping behaviour described by the spec
is implemented by `nxo_check_index` (`defs.c`), which the evaluator does
not call for list subscripts. -/
theorem c2_subscript_read_rejects_negative_index
    (src : List Char) (recv idx : Expr) (sp : Nat)
    (s s1 s2 : InterpState) (ra ia len itemsAddr : Nat) (i : Int) (data : List Nat)
    (h1 : evalExpr src recv { s with trace := Expr.subscript recv idx sp :: s.trace } =
      .ok (ra, s1))
    (h2 : heapGet s1.heap ra = some (.list len itemsAddr))
    (h3 : evalExpr src idx s1 = .ok (ia, s2))
    (h4 : heapGet s2.heap ia = some (.int i))
    (h5 : heapGet s2.heap itemsAddr = some (.arr data)) :
    (0 ≤ i ∧ i < (len : Int) →
      evalExpr src (.subscript recv idx sp) s = .ok (data.getD i.toNat 0, s2)) ∧
    (i < 0 ∨ (len : Int) ≤ i →
      evalExpr src (.subscript recv idx sp) s = .error "Index out of range") ∧
    (-(len : Int) ≤ i ∧ i < 0 →
      evalExpr src (.subscript recv idx sp) s = .error "Index out of range" ∧
      nxo_check_index s2.heap ia (len : Int) = .ok (i + len)) := by
  have hbase : evalExpr src (.subscript recv idx sp) s =
      if i < 0 ∨ i ≥ (len : Int) then .error "Index out of range"
      else .ok (data.getD i.toNat 0, s2) := by
    simp only [evalExpr, h1, h2, h3, h4, h5]
  refine ⟨?_, ?_, ?_⟩
  · intro hr
    rw [hbase, if_neg (by omega)]
  · intro hr
    rw [hbase, if_pos (by omega)]
  · intro hr
    refine ⟨by rw [hbase, if_pos (by omega)], ?_⟩
    simp only [nxo_check_index, h4]
    rw [if_neg (by omega), if_pos (show i < 0 by omega), if_neg (by omega)]

theorem c2_subscript_read_rejects_negative_index_witness :
    evalExpr "x[i]\n".toList (.subscript (.name 0 1) (.name 2 3) 4)
        ⟨[(300, .arr [7]), (301, .list 1 300)], 302,
          [("x".toList, 301), ("i".toList, 1)], [], []⟩ =
      .error "Index out of range" ∧
    nxo_check_index [(300, HObj.arr [7]), (301, HObj.list 1 300)] 1 1 = .ok 0 := by
  have h := c2_subscript_read_rejects_negative_index "x[i]\n".toList
    (.name 0 1) (.name 2 3) 4
    ⟨[(300, .arr [7]), (301, .list 1 300)], 302,
      [("x".toList, 301), ("i".toList, 1)], [], []⟩
    ⟨[(300, .arr [7]), (301, .list 1 300)], 302,
      [("x".toList, 301), ("i".toList, 1)],
      [.name 0 1, .subscript (.name 0 1) (.name 2 3) 4], []⟩
    ⟨[(300, .arr [7]), (301, .list 1 300)], 302,
      [("x".toList, 301), ("i".toList, 1)],
      [.name 2 3, .name 0 1, .subscript (.name 0 1) (.name 2 3) 4], []⟩
    301 1 1 300 (-1) [7] rfl (by decide) rfl (by decide) (by decide)
  have h3 := h.2.2 (by constructor <;> decide)
  exact ⟨h3.1, by simpa using h3.2⟩

theorem c2_negative_index_not_wrapped_counterexample :
    interp "print([5][0-1])\n".toList = .error "Index out of range" := by
  have hparse : (parseProgram "print([5][0-1])\n".toList).1 =
      some (.cons (.printS (.subscript (.listLiteral 6 9 (.cons (.intLiteral 7 8) .nil))
        (.binary (.intLiteral 10 11) .SUB (.intLiteral 12 13)) 14)) .nil) := rfl
  rw [interp_parse_some _ _ hparse]
  decide

/-- C3: the empty list literal `[]` aborts — `eval_expr` counts zero
elements and calls `nx_list_create(0)`, violating the
`initial_capacity > 0` assertion of `nx_list_create` — instead of
producing an empty list of positive capacity as the spec requires. -/
theorem c3_empty_list_literal_violates_capacity_assert :
    evalExpr "[]\n".toList (.listLiteral 0 2 .nil) initInterpState =
      .error "assertion failure: initial_capacity > 0" ∧
    interp "x = []\n".toList = .error "assertion failure: initial_capacity > 0" := by
  refine ⟨by decide, ?_⟩
  have hparse : (parseProgram "x = []\n".toList).1 =
      some (.cons (.assignment (.name 0 1) (.listLiteral 4 6 .nil)) .nil) := rfl
  rw [interp_parse_some _ _ hparse]
  decide

/-- C7: `int_from_str` accepts `INT64_MAX` and rejects `2^63` (the
accumulator turns negative), but the overflow check `value < 0` misses
multiples of `2^64`: the literal `2^64` wraps silently to `0` and the
program continues with `x = 0`, so over-range digit spans do not always
abort. -/
theorem c7_int_literal_overflow_check_has_gap :
    int_from_str "9223372036854775807".toList = .ok (2 ^ 63 - 1) ∧
    int_from_str "9223372036854775808".toList = .error "Integer literal too large" ∧
    int_from_str "18446744073709551616".toList = .ok 0 ∧
    (interp "x = 18446744073709551616\n".toList).map
        (fun s => List.lookup "x".toList s.env) = .ok (some (cachedIntAddr 0)) := by
  refine ⟨by decide, by decide, by decide, ?_⟩
  have hparse : (parseProgram "x = 18446744073709551616\n".toList).1 =
      some (.cons (.assignment (.name 0 1) (.intLiteral 4 24)) .nil) := rfl
  rw [interp_parse_some _ _ hparse]
  decide

/-- Collector state, from `GcState` of `gc.c`/`gc_internals.h`: the heap
as the list of header addresses in chain order, the object count, the
collection threshold, and the root stack.  `graph` records, per object,
the addresses its `trace_fn` visits (the object graph); `next` supplies
fresh addresses for `gc_alloc`.  `marked` is the set of addresses whose
header currently carries the mark bit: the sweep clears the bit only on
surviving heap-chain members, so a mark set on a rooted object that is
not in the chain (such as the stack-allocated `Env` of `run`) persists
across collections and makes the next `gc_visit` skip its trace. -/
structure GcState where
  graph : List (Nat × List Nat)
  heap : List Nat
  objects_count : Nat
  threshold : Nat
  roots : List Nat
  marked : List Nat
  next : Nat
deriving DecidableEq

/-- The addresses an object reports to `gc_visit` (its `trace_fn`);
an object without an entry reports none (`gc_trace_nop`). -/
def children (graph : List (Nat × List Nat)) (a : Nat) : List Nat :=
  (List.lookup a graph).getD []

/-- The mark phase (`gc_visit` from `gc.c`, with its recursion made an
explicit work list): skip `NULL` and already-marked addresses — without
tracing them — otherwise mark and enqueue what the trace function
reports.  `marked` starts from the marks already set on entry. -/
def gcMarkGo (graph : List (Nat × List Nat)) : Nat → List Nat → List Nat → List Nat
  | 0, marked, _ => marked
  | _ + 1, marked, [] => marked
  | fuel + 1, marked, a :: work =>
      if a = 0 ∨ marked.contains a then gcMarkGo graph fuel marked work
      else gcMarkGo graph fuel (a :: marked) (children graph a ++ work)

/-- The marked set after visiting every root, starting from the marks
persisting from earlier collections, with fuel ample for the object graph
(each address is marked at most once and each work item is consumed by
one step). -/
def gc_mark (graph : List (Nat × List Nat)) (roots marked0 : List Nat) : List Nat :=
  gcMarkGo graph
    (roots.length + graph.length + (graph.map (fun e => e.2.length)).sum + 1)
    marked0 roots

/-- The sweep phase of `gc_collect`: the heap chain keeps exactly the
objects whose mark bit is set after the mark phase. -/
def gc_survivors (s : GcState) : List Nat :=
  s.heap.filter (fun a => (gc_mark s.graph s.roots s.marked).contains a)

/-- The mark bits left after the sweep: `UNMARK` runs only on surviving
heap-chain members and freed objects are deallocated, so exactly the
marked addresses outside the heap chain keep their bit. -/
def gc_marked_after (s : GcState) : List Nat :=
  (gc_mark s.graph s.roots s.marked).filter (fun a => !(s.heap.contains a))

/-- `gc_collect` from `gc.c`: mark from the roots (skipping anything
still marked from an earlier collection); sweep the heap chain, retaining
exactly the marked objects and clearing only their marks (`count` freed
ones leave the object count); then, when the survivors still occupy at
least 87.5% of the threshold, double it — after panicking if bit 63 of
the threshold is already set. -/
def gc_collect (s : GcState) : Except String GcState :=
  if s.objects_count - (s.heap.length - (gc_survivors s).length) ≥
      s.threshold - s.threshold / 8 then
    if s.threshold.testBit 63 then .error "too many objects"
    else .ok { s with heap := gc_survivors s,
                      marked := gc_marked_after s,
                      objects_count := s.objects_count - (s.heap.length - (gc_survivors s).length),
                      threshold := s.threshold * 2 }
  else .ok { s with heap := gc_survivors s,
                    marked := gc_marked_after s,
                    objects_count := s.objects_count - (s.heap.length - (gc_survivors s).length) }

/-- `gc_alloc` from `gc.c` (the `malloc`-failure retry aside): collect
when the object count has reached the threshold, then link a fresh,
unmarked header at the head of the chain.  `childs` is what the new
object will report to the collector (`NULL` meaning `gc_trace_nop`, the
empty list). -/
def gc_alloc (s : GcState) (childs : List Nat) : Except String (Nat × GcState) :=
  let r := if s.objects_count ≥ s.threshold then gc_collect s else .ok s
  match r with
  | .error m => .error m
  | .ok s =>
    .ok (s.next, { s with heap := s.next :: s.heap,
                          graph := (s.next, childs) :: s.graph,
                          objects_count := s.objects_count + 1,
                          next := s.next + 1 })

/-- `nx_int_create` from `nx_int.c` at the collector level: cached values
return the statically allocated singleton without touching the collector;
all others allocate (`NxInt` has `gc_trace_nop`, reporting no children). -/
def nx_int_create_gc (value : Int) (s : GcState) : Except String (Nat × GcState) :=
  if -1 ≤ value ∧ value ≤ 255 then .ok (cachedIntAddr value, s)
  else gc_alloc s []

/-- Well-formedness of a collector state: every dynamically allocated
address — heap links, object-graph keys and the next fresh address — lies
above the static int cache `1..257`. -/
def GcWF (s : GcState) : Prop :=
  258 ≤ s.next ∧ (∀ a ∈ s.heap, 258 ≤ a ∧ a < s.next) ∧
    (∀ e ∈ s.graph, 258 ≤ e.1 ∧ e.1 < s.next)

theorem gc_collect_ok_parts (s s1 : GcState) (h : gc_collect s = .ok s1) :
    s1.heap = gc_survivors s ∧
    s1.objects_count = s.objects_count - (s.heap.length - (gc_survivors s).length) ∧
    s1.graph = s.graph ∧ s1.roots = s.roots ∧ s1.next = s.next ∧
    s1.marked = gc_marked_after s := by
  revert h
  unfold gc_collect
  split_ifs with h1 h2
  · intro h
    exact absurd h (by simp)
  · intro h
    injection h with h
    subst h
    exact ⟨rfl, rfl, rfl, rfl, rfl, rfl⟩
  · intro h
    injection h with h
    subst h
    exact ⟨rfl, rfl, rfl, rfl, rfl, rfl⟩

theorem gc_collect_heap_subset (s s1 : GcState) (h : gc_collect s = .ok s1) :
    s1.heap ⊆ s.heap := by
  rw [(gc_collect_ok_parts s s1 h).1]
  intro x hx
  exact List.mem_of_mem_filter hx

/-- C5 (amended): `collect(); collect()` is not equivalent to
`collect()`.  What a second, immediately following collection does
guarantee: it never grows the heap chain or the object count, it leaves
the roots, the object graph and the address supply unchanged, and it
starts with every heap-chain member unmarked (the first sweep cleared
exactly their bits).  It is not the identity: the threshold can double
again, and mark bits persisting on rooted objects outside the heap chain
make the second mark phase skip their trace, so the second sweep can even
free objects the first collection retained (see the counterexample). -/
theorem c5_second_collect_shrinks_heap_keeps_roots (s s1 s2 : GcState)
    (h1 : gc_collect s = .ok s1) (h2 : gc_collect s1 = .ok s2) :
    s2.heap ⊆ s1.heap ∧ s2.objects_count ≤ s1.objects_count ∧
    s2.roots = s1.roots ∧ s2.graph = s1.graph ∧ s2.next = s1.next ∧
    (∀ a ∈ s1.heap, a ∉ s1.marked) := by
  obtain ⟨e1heap, e1oc, e1graph, e1roots, e1next, e1marked⟩ := gc_collect_ok_parts s s1 h1
  obtain ⟨e2heap, e2oc, e2graph, e2roots, e2next, e2marked⟩ := gc_collect_ok_parts s1 s2 h2
  refine ⟨gc_collect_heap_subset s1 s2 h2, ?_, e2roots, e2graph, e2next, ?_⟩
  · rw [e2oc]
    exact Nat.sub_le _ _
  · intro a ha hmem
    rw [e1heap] at ha
    rw [e1marked] at hmem
    have ha2 : a ∈ s.heap := List.mem_of_mem_filter ha
    have hm2 := (List.mem_filter.mp hmem).2
    have ha3 : a ∉ s.heap := by simpa using hm2
    exact ha3 ha2

theorem c5_second_collect_shrinks_heap_keeps_roots_witness :
    gc_collect ⟨[], [300], 1, 100, [], [], 301⟩ = .ok ⟨[], [], 0, 100, [], [], 301⟩ ∧
    gc_collect ⟨[], [], 0, 100, [], [], 301⟩ = .ok ⟨[], [], 0, 100, [], [], 301⟩ ∧
    (([] : List Nat) ⊆ [] ∧ (0 : Nat) ≤ 0 ∧ ([] : List Nat) = [] ∧
      ([] : List (Nat × List Nat)) = [] ∧ (301 : Nat) = 301 ∧
      ∀ a ∈ ([] : List Nat), a ∉ ([] : List Nat)) :=
  ⟨by decide, by decide,
    c5_second_collect_shrinks_heap_keeps_roots
      ⟨[], [300], 1, 100, [], [], 301⟩ ⟨[], [], 0, 100, [], [], 301⟩
      ⟨[], [], 0, 100, [], [], 301⟩ (by decide) (by decide)⟩

theorem lookup_none_of_keys_ge (l : List (Nat × List Nat)) (a : Nat)
    (h : ∀ e ∈ l, 258 ≤ e.1) (ha : a < 258) : List.lookup a l = none := by
  induction l with
  | nil => rfl
  | cons e tl ih =>
    have he := h e (by simp)
    have hne : (a == e.1) = false := by
      simp only [beq_eq_false_iff_ne, ne_eq]
      omega
    simp [List.lookup, hne, ih (fun x hx => h x (by simp [hx]))]

/-- C6: small-integer interning.  For every `v` in `[-1, 255]` and every
well-formed collector state, creation returns the statically allocated
singleton address (`pointer-equal` across calls, the state untouched),
that address is never linked into the heap chain, its trace function is
the no-op (no object-graph entry), and no collection ever frees it (the
sweep removes only heap-linked objects); for every `v` outside the cache,
creation allocates a fresh address, linked at the head of the heap chain. -/
theorem c6_small_int_singletons_never_collected (v : Int) (s : GcState) :
    ((-1 ≤ v ∧ v ≤ 255) → GcWF s →
      nx_int_create_gc v s = .ok (cachedIntAddr v, s) ∧
      cachedIntAddr v ∉ s.heap ∧
      List.lookup (cachedIntAddr v) s.graph = none ∧
      (∀ s1, gc_collect s = .ok s1 → cachedIntAddr v ∉ s1.heap)) ∧
    (¬(-1 ≤ v ∧ v ≤ 255) → GcWF s →
      ∀ a s1, nx_int_create_gc v s = .ok (a, s1) →
        a = s.next ∧ a ∉ s.heap ∧ a ∈ s1.heap) := by
  constructor
  · intro hv hwf
    have hle : cachedIntAddr v ≤ 257 ∧ 1 ≤ cachedIntAddr v := by
      unfold cachedIntAddr
      omega
    have hnotheap : cachedIntAddr v ∉ s.heap := by
      intro hmem
      have := (hwf.2.1 _ hmem).1
      omega
    refine ⟨?_, hnotheap, ?_, ?_⟩
    · unfold nx_int_create_gc
      rw [if_pos hv]
    · exact lookup_none_of_keys_ge s.graph _ (fun e he => (hwf.2.2 e he).1) (by omega)
    · intro s1 h1 hmem
      exact hnotheap (gc_collect_heap_subset s s1 h1 hmem)
  · intro hv hwf a s1 h
    unfold nx_int_create_gc at h
    rw [if_neg hv] at h
    unfold gc_alloc at h
    by_cases hc : s.objects_count ≥ s.threshold
    · rw [if_pos hc] at h
      cases hr : gc_collect s with
      | error m => rw [hr] at h; exact absurd h (by simp)
      | ok smid =>
        rw [hr] at h
        simp only at h
        rw [Except.ok.injEq, Prod.mk.injEq] at h
        obtain ⟨ha, hs1⟩ := h
        have hnext : smid.next = s.next := (gc_collect_ok_parts s smid hr).2.2.2.2.1
        have hsub : smid.heap ⊆ s.heap := gc_collect_heap_subset s smid hr
        subst hs1
        refine ⟨ha.symm.trans hnext, ?_, ?_⟩
        · intro hmem
          have := (hwf.2.1 _ hmem).2
          omega
        · show a ∈ smid.next :: smid.heap
          exact ha ▸ List.mem_cons_self _ _
    · rw [if_neg hc] at h
      simp only at h
      rw [Except.ok.injEq, Prod.mk.injEq] at h
      obtain ⟨ha, hs1⟩ := h
      subst hs1
      refine ⟨ha.symm, ?_, ?_⟩
      · intro hmem
        have := (hwf.2.1 _ hmem).2
        omega
      · show a ∈ s.next :: s.heap
        exact ha ▸ List.mem_cons_self _ _

theorem c6_small_int_singletons_never_collected_witness :
    ((-1 : Int) ≤ 5 ∧ (5 : Int) ≤ 255) ∧
    GcWF ⟨[(300, [])], [300], 1, 100, [], [], 301⟩ ∧
    (nx_int_create_gc 5 ⟨[(300, [])], [300], 1, 100, [], [], 301⟩ =
        .ok (cachedIntAddr 5, ⟨[(300, [])], [300], 1, 100, [], [], 301⟩) ∧
      cachedIntAddr 5 ∉ ([300] : List Nat) ∧
      List.lookup (cachedIntAddr 5) [(300, ([] : List Nat))] = none) ∧
    (∀ a s1, nx_int_create_gc 1000 ⟨[(300, [])], [300], 1, 100, [], [], 301⟩ = .ok (a, s1) →
      a = 301 ∧ a ∉ ([300] : List Nat) ∧ a ∈ s1.heap) := by
  have h5 := (c6_small_int_singletons_never_collected 5
    ⟨[(300, [])], [300], 1, 100, [], [], 301⟩).1 (by decide)
    (by refine ⟨by decide, ?_, ?_⟩ <;> decide)
  have h1000 := (c6_small_int_singletons_never_collected 1000
    ⟨[(300, [])], [300], 1, 100, [], [], 301⟩).2 (by decide)
    (by refine ⟨by decide, ?_, ?_⟩ <;> decide)
  exact ⟨by decide, by refine ⟨by decide, ?_, ?_⟩ <;> decide,
    ⟨h5.1, h5.2.1, h5.2.2.1⟩, h1000⟩

theorem c5_collect_collect_not_equivalent_counterexample :
    ((gc_collect ⟨[], [301, 302, 303, 304, 305, 306, 307, 308, 309, 310, 311, 312, 313, 314],
        14, 8, [301, 302, 303, 304, 305, 306, 307, 308, 309, 310, 311, 312, 313, 314], [], 315⟩).bind
      gc_collect ≠
    gc_collect ⟨[], [301, 302, 303, 304, 305, 306, 307, 308, 309, 310, 311, 312, 313, 314],
        14, 8, [301, 302, 303, 304, 305, 306, 307, 308, 309, 310, 311, 312, 313, 314], [], 315⟩ ∧
    ((gc_collect ⟨[], [301, 302, 303, 304, 305, 306, 307, 308, 309, 310, 311, 312, 313, 314],
        14, 8, [301, 302, 303, 304, 305, 306, 307, 308, 309, 310, 311, 312, 313, 314], [], 315⟩).bind
      gc_collect).map (fun t => t.threshold) = .ok 32 ∧
    (gc_collect ⟨[], [301, 302, 303, 304, 305, 306, 307, 308, 309, 310, 311, 312, 313, 314],
        14, 8, [301, 302, 303, 304, 305, 306, 307, 308, 309, 310, 311, 312, 313, 314], [], 315⟩).map
      (fun t => t.threshold) = .ok 16) ∧
    (gc_collect ⟨[(500, [300])], [300], 1, 100, [500], [], 501⟩ =
        .ok ⟨[(500, [300])], [300], 1, 100, [500], [500], 501⟩ ∧
      gc_collect ⟨[(500, [300])], [300], 1, 100, [500], [500], 501⟩ =
        .ok ⟨[(500, [300])], [], 0, 100, [500], [500], 501⟩) := by
  refine ⟨⟨by decide, by decide, by decide⟩, by decide, by decide⟩

/-- `main` from `main.c`, as the process exit status: wrong argument
count, a non-digit program argument, and an unreadable file return `1`;
`panic` (from any runtime error, `int_from_str` overflow included) calls
`exit(1)`; otherwise `main` runs the program and falls off the end,
returning `0` — also when the parse failed and nothing was executed. -/
def mainModel (args : List (List Char)) (fileContent : Option (List Char)) : Int :=
  if args.length ≠ 2 ∧ args.length ≠ 3 then 1
  else
    let argR : Except String Int :=
      if args.length = 3 then
        let a := args.getD 2 []
        if ¬(a.all (fun c => '0' ≤ c && c ≤ '9')) then .error "Invalid argument"
        else int_from_str a
      else .ok 0
    match argR with
    | .error _ => 1
    | .ok argVal =>
      match fileContent with
      | none => 1
      | some src =>
        match runModel (16 * (src.length + 1)) src argVal with
        | .error _ => 1
        | .ok _ => 0

/-- C10 (amended): with a readable file, a failed parse executes no guest
statement and exits with status `0`, exactly like a successful run; a
missing file or a wrong argument count exits with status `1`; and a
runtime panic also exits with status `1` — the SAME status as usage
errors, not a distinct one. -/
theorem c10_exit_statuses (a0 a1 src : List Char) :
    ((parseProgram src).1 = none →
      mainModel [a0, a1] (some src) = 0 ∧
      interp src = .ok ⟨[], 258, [("arg".toList, 2)], [], []⟩) ∧
    (∀ s1, interp src = .ok s1 → mainModel [a0, a1] (some src) = 0) ∧
    (∀ m, interp src = .error m → mainModel [a0, a1] (some src) = 1) ∧
    mainModel [a0, a1] none = 1 ∧
    mainModel [a0] (some src) = 1 ∧
    mainModel [] (some src) = 1 := by
  have hm : mainModel [a0, a1] (some src) =
      (match interp src with
       | .error _ => 1
       | .ok _ => 0) := rfl
  refine ⟨?_, ?_, ?_, rfl, rfl, rfl⟩
  · intro hp
    have hr := interp_parse_none src hp
    exact ⟨by rw [hm, hr], hr⟩
  · intro s1 hr
    rw [hm, hr]
  · intro m hr
    rw [hm, hr]

theorem c10_exit_statuses_witness :
    (parseProgram "= 1\n".toList).1 = none ∧
    mainModel ["natrix".toList, "f.nx".toList] (some "= 1\n".toList) = 0 ∧
    interp "= 1\n".toList = .ok ⟨[], 258, [("arg".toList, 2)], [], []⟩ ∧
    mainModel ["natrix".toList, "f.nx".toList] none = 1 ∧
    mainModel ["natrix".toList] (some "= 1\n".toList) = 1 := by
  have h := c10_exit_statuses "natrix".toList "f.nx".toList "= 1\n".toList
  have hp : (parseProgram "= 1\n".toList).1 = none := rfl
  have h1 := h.1 hp
  exact ⟨hp, h1.1, h1.2, h.2.2.2.1, h.2.2.2.2.1⟩

theorem c10_panic_status_equals_usage_status_counterexample :
    mainModel ["natrix".toList, "f.nx".toList] (some "1/0\n".toList) = 1 ∧
    mainModel ["natrix".toList] none = 1 := by
  have hparse : (parseProgram "1/0\n".toList).1 =
      some (.cons (.exprS (.binary (.intLiteral 0 1) .DIV (.intLiteral 2 3))) .nil) := rfl
  have hrun : interp "1/0\n".toList = .error "Division by zero" := by
    rw [interp_parse_some _ _ hparse]
    decide
  constructor
  · have hm : mainModel ["natrix".toList, "f.nx".toList] (some "1/0\n".toList) =
        (match interp "1/0\n".toList with
         | .error _ => 1
         | .ok _ => 0) := rfl
    rw [hm, hrun]
  · rfl

end Natrix
